import Mathlib

/-!
# TASToolKitEditor: the input-file validator and document

A shallow embedding of `src/InputFile.cpp`.

* `int` is `Int`: the code only compares values and adds one to a record count.
* `QString` is `String`, `QStringList` and `QVector` are `List`.
* The member functions `ableToDiscernCentering`, `getSmallestAcceptedValue`,
  `getLargestAcceptedValue`, `valueRestrictionsAreMet`, `valuesFormattedProperly`
  and `inputValid` read and write no member other than `m_fileCentering`, so the
  state they thread is that member: they take the mode and return the result
  together with the mode they leave behind.
* `loadFile`, `fileChanged`, `clearData`, `closeFile` work on the whole document;
  `swap` works on two documents and the disk.
* The body of `InputFileModel::writeFileOnDisk`, called by `swap`, is not part of
  the sources at hand either; `swap` takes it as a parameter.
* `InputFile.h` is not part of the sources at hand. Its constants and the Qt
  conversion `QString::toInt` are collected in `Env` and every function takes
  them as a parameter.
-/

namespace TASToolKit

/-! ## Data model -/

/-- The tri-state `Centering` enumeration of `InputFile.h`. -/
inductive Centering where
  | Unknown
  | Zero
  | Seven
  deriving DecidableEq

/-- The `FileStatus` enumeration returned by `loadFile`. -/
inductive FileStatus where
  | Success
  | WritePermission
  | Parse
  deriving DecidableEq

/-- What the translation unit takes from outside: the constants of `InputFile.h`
and the library conversion `QString::toInt` (`none` when it reports `ok = false`). -/
structure Env where
  NUM_INPUT_COLUMNS : Int
  FRAMECOUNT_COLUMN : Int
  BUTTON_COL_IDXS : List Int
  DPAD_COL_IDX : Int
  toInt : String → Option Int

/-- The `QModelIndex` of a table cell: its row and column. -/
structure QModelIndex where
  row : Int
  column : Int

/-- The two observations `inputValid` makes of its `QVariant` argument:
`eqEmpty` is the outcome of `value == ""`, and `toFloat` is `none` when
`value.toFloat(&ok)` reports `ok = false` and otherwise the converted number after
the `(int)` cast of line 213. -/
structure QVariant where
  eqEmpty : Bool
  toFloat : Option Int

/-- A variant holding the integer `n` (or its decimal text); exact for the small
values the validator distinguishes. -/
def QVariant.ofInt (n : Int) : QVariant :=
  { eqEmpty := false, toFloat := some n }

/-- An entry of the undo and redo stacks. -/
structure CellEditAction where
  m_rowIdx : Int
  m_colIdx : Int
  m_prev : String
  m_cur : String
  deriving DecidableEq

/-- The members of `InputFile` that the functions below read or write. The
widget handles `pLabel` and `m_menus` only receive visibility calls and are left
out; `pTableView` is kept as a handle number and `m_pFsWatcher` as the
list of watched paths (`none`: no watcher). -/
structure InputFile where
  m_filePath : String
  m_fileCentering : Centering
  m_fileData : List (List String)
  m_undoStack : List CellEditAction
  m_redoStack : List CellEditAction
  m_tableViewLoaded : Bool
  pTableView : Nat
  m_frameParseError : Int
  m_pFsWatcher : Option (List String)
  m_bModified : Bool
  m_iModifiedCheck : Int
  deriving DecidableEq

/-- The macro `INVALID_IDX` of line 12, the index that stands for no row or column. -/
def INVALID_IDX : Int := -1

/-- The constructor `InputFile::InputFile` (lines 35-47). -/
def InputFile.new (tableView : Nat) : InputFile :=
  { m_filePath := ""
    m_fileCentering := Centering.Unknown
    m_fileData := []
    m_undoStack := []
    m_redoStack := []
    m_tableViewLoaded := false
    pTableView := tableView
    m_frameParseError := INVALID_IDX
    m_pFsWatcher := none
    m_bModified := false
    m_iModifiedCheck := 0 }

/-- The files that can be opened read-write, each as the list of lines that
`QTextStream::readLine` yields until `atEnd`; `none`: `open` fails. -/
abbrev FileSystem := String → Option (List String)

/-! ## Text helpers -/

/-- The split of `QString::split(sep)` with the default `KeepEmptyParts`, on character lists. -/
def splitChars (sep : Char) : List Char → List (List Char)
  | [] => [[]]
  | c :: cs =>
    if c = sep then [] :: splitChars sep cs
    else
      match splitChars sep cs with
      | [] => [[c]]
      | w :: ws => (c :: w) :: ws

/-- The call `line.split(sep)` of line 62. -/
def split (line : String) (sep : Char) : List String :=
  (splitChars sep line.data).map String.mk

/-- Value of a run of decimal digits, most significant first, onto `acc`. -/
def digitsValue : List Char → Nat → Option Nat
  | [], acc => some acc
  | c :: cs, acc =>
    if c.isDigit then digitsValue cs (acc * 10 + (c.toNat - 48)) else none

/-- Drop the white space in front of a character list. -/
def dropSpace : List Char → List Char
  | [] => []
  | c :: cs => if c.isWhitespace then dropSpace cs else c :: cs

/-- An unsigned decimal literal: at least one digit and nothing else. -/
def unsignedValue (cs : List Char) : Option Nat :=
  match cs with
  | [] => none
  | _ :: _ => digitsValue cs 0

/-- A concrete reading of `QString::toInt` (C locale, base 10) used to evaluate
examples: surrounding white space is ignored, one sign is allowed, the digits
must be decimal and the value must fit a 32-bit `int`. -/
def qtToInt (s : String) : Option Int :=
  let cs := (dropSpace (dropSpace s.data).reverse).reverse
  match cs with
  | '-' :: ds =>
    match unsignedValue ds with
    | some n => if n ≤ 2147483648 then some (-(n : Int)) else none
    | none => none
  | '+' :: ds =>
    match unsignedValue ds with
    | some n => if n ≤ 2147483647 then some (n : Int) else none
    | none => none
  | ds =>
    match unsignedValue ds with
    | some n => if n ≤ 2147483647 then some (n : Int) else none
    | none => none

/-- Modelled from the spec: `InputFile.h` is missing, so the column constants are
the spec's column roles (six fields; 1-3 buttons, 4 d-pad, 0 and 5 fall to the
axis rule). The spec does not give `FRAMECOUNT_COLUMN` and does not fix the
conversion, so both stay parameters. -/
def specEnv (framecountColumn : Int) (toInt : String → Option Int) : Env :=
  { NUM_INPUT_COLUMNS := 6
    FRAMECOUNT_COLUMN := framecountColumn
    BUTTON_COL_IDXS := [1, 2, 3]
    DPAD_COL_IDX := 4
    toInt := toInt }

/-! ## The validator -/

/-- Embeds `InputFile::ableToDiscernCentering` (lines 182-192). -/
def ableToDiscernCentering (value : Int) (m_fileCentering : Centering) : Bool × Centering :=
  if value > 7 then (true, Centering.Seven)
  else if value < 0 then (true, Centering.Zero)
  else (false, m_fileCentering)

/-- Embeds `InputFile::getSmallestAcceptedValue` (lines 159-168). The `&&` of line 164
calls `ableToDiscernCentering` only when the mode is `Unknown`. -/
def getSmallestAcceptedValue (E : Env) (index value : Int) (m_fileCentering : Centering) :
    Int × Centering :=
  if E.BUTTON_COL_IDXS.contains index || E.DPAD_COL_IDX == index then (0, m_fileCentering)
  else if m_fileCentering = Centering.Unknown then
    let r := ableToDiscernCentering value m_fileCentering
    if !r.1 then (0, r.2)
    else (if r.2 = Centering.Seven then 0 else -7, r.2)
  else (if m_fileCentering = Centering.Seven then 0 else -7, m_fileCentering)

/-- Embeds `InputFile::getLargestAcceptedValue` (lines 170-180). -/
def getLargestAcceptedValue (E : Env) (index value : Int) (m_fileCentering : Centering) :
    Int × Centering :=
  if E.DPAD_COL_IDX == index then (4, m_fileCentering)
  else if E.BUTTON_COL_IDXS.contains index then (1, m_fileCentering)
  else if m_fileCentering = Centering.Unknown then
    let r := ableToDiscernCentering value m_fileCentering
    if !r.1 then (7, r.2)
    else (if r.2 = Centering.Seven then 14 else 7, r.2)
  else (if m_fileCentering = Centering.Seven then 14 else 7, m_fileCentering)

/-- Lines 149-153 of `valueRestrictionsAreMet`: the bounds test of one field,
`getSmallestAcceptedValue` followed by `getLargestAcceptedValue`; `true` when the
value passes. -/
def valueWithinBounds (E : Env) (i value : Int) (m_fileCentering : Centering) :
    Bool × Centering :=
  let lo := getSmallestAcceptedValue E i value m_fileCentering
  let hi := getLargestAcceptedValue E i value lo.2
  (!(decide (value > hi.1) || decide (value < lo.1)), hi.2)

/-- The loop of `valueRestrictionsAreMet` (lines 135-154) from index `i` on;
`data` holds the fields `data[i]`, `data[i+1]`, ... still to be checked. -/
def valueRestrictionsAreMetFrom (E : Env) : List String → Int → Centering → Bool × Centering
  | [], _, c => (true, c)
  | field :: rest, i, c =>
    if field == "-0" then (false, c)
    else
      match E.toInt field with
      | none => (false, c)
      | some value =>
        let r := valueWithinBounds E i value c
        if !r.1 then (false, r.2)
        else valueRestrictionsAreMetFrom E rest (i + 1) r.2

/-- Embeds `InputFile::valueRestrictionsAreMet` (lines 133-157). -/
def valueRestrictionsAreMet (E : Env) (data : List String) (m_fileCentering : Centering) :
    Bool × Centering :=
  valueRestrictionsAreMetFrom E data 0 m_fileCentering

/-- Embeds `InputFile::valuesFormattedProperly` (lines 118-131). -/
def valuesFormattedProperly (E : Env) (data : List String) (m_fileCentering : Centering) :
    Bool × Centering :=
  if (data.length : Int) != E.NUM_INPUT_COLUMNS then (false, m_fileCentering)
  else
    let r := valueRestrictionsAreMet E data m_fileCentering
    if !r.1 then (false, r.2)
    else (true, r.2)

/-- Embeds `InputFile::inputValid` (lines 206-235). -/
def inputValid (E : Env) (index : QModelIndex) (value : QVariant) (m_fileCentering : Centering) :
    Bool × Centering :=
  if value.eqEmpty then (false, m_fileCentering)
  else
    match value.toFloat with
    | none => (false, m_fileCentering)
    | some iValue =>
      if E.BUTTON_COL_IDXS.contains (index.column - E.FRAMECOUNT_COLUMN) then
        (iValue == 0 || iValue == 1, m_fileCentering)
      else if index.column == E.DPAD_COL_IDX + E.FRAMECOUNT_COLUMN then
        (decide (iValue ≥ 0) && decide (iValue ≤ 4), m_fileCentering)
      else if m_fileCentering = Centering.Seven then
        (decide (iValue ≥ 0) && decide (iValue ≤ 14), m_fileCentering)
      else if m_fileCentering = Centering.Zero then
        (decide (iValue ≥ -7) && decide (iValue ≤ 7), m_fileCentering)
      else if decide (iValue < -7) || decide (iValue > 14) then (false, m_fileCentering)
      else (true, (ableToDiscernCentering iValue m_fileCentering).2)

/-! ## The document -/

/-- Embeds `InputFile::clearData` (lines 112-116). -/
def clearData (s : InputFile) : InputFile :=
  { s with m_filePath := "", m_fileData := [] }

/-- The `while (!ts.atEnd())` loop of `loadFile` (lines 59-76) over the lines not
yet read, ending with the watcher of line 74. -/
def loadLines (E : Env) (path : String) : List String → InputFile → FileStatus × InputFile
  | [], s => (FileStatus.Success, { s with m_pFsWatcher := some [path] })
  | line :: rest, s =>
    let frameData := split line ','
    let r := valuesFormattedProperly E frameData s.m_fileCentering
    let s1 := { s with m_fileCentering := r.2 }
    if !r.1 then
      (FileStatus.Parse,
        clearData { s1 with m_frameParseError := (s1.m_fileData.length : Int) + 1 })
    else loadLines E path rest { s1 with m_fileData := s1.m_fileData ++ [frameData] }

/-- Embeds `InputFile::loadFile` (lines 49-77): the path is stored, the file is opened
read-write, and the lines are read one by one. -/
def loadFile (E : Env) (fs : FileSystem) (path : String) (s : InputFile) :
    FileStatus × InputFile :=
  let s0 := { s with m_filePath := path }
  match fs s0.m_filePath with
  | none => (FileStatus.WritePermission, s0)
  | some lines => loadLines E path lines s0

/-- Embeds `InputFile::fileChanged` (lines 93-110). -/
def fileChanged (E : Env) (fs : FileSystem) (s : InputFile) : InputFile :=
  if s.m_bModified then
    let s1 := { s with m_iModifiedCheck := s.m_iModifiedCheck + 1 }
    if s1.m_iModifiedCheck == 2 then { s1 with m_bModified := false, m_iModifiedCheck := 0 }
    else s1
  else
    let s1 := { s with m_fileData := [] }
    (loadFile E fs s1.m_filePath s1).2

/-- Embeds `InputFile::closeFile` (lines 195-204); the watcher is deleted and the
visibility calls on the widgets are outside the state. -/
def closeFile (s : InputFile) : InputFile :=
  { clearData s with m_fileCentering := Centering.Unknown, m_pFsWatcher := none }

/-! ## Vocabulary of the claims -/

/-- The lines all pass `valuesFormattedProperly` one after the other, the mode
left by one line being the mode the next one starts from; the result is the mode
after the last line, `none` as soon as one line is rejected. -/
def validateLines (E : Env) : List String → Centering → Option Centering
  | [], c => some c
  | line :: rest, c =>
    let r := valuesFormattedProperly E (split line ',') c
    if r.1 then validateLines E rest r.2 else none

/-- A well-formed line in the words of the overlap-range property: exactly six
integer fields, none written "-0", a non-negative frame count in column 0,
buttons 0 or 1 in columns 1-3, a d-pad value 0..4 in column 4 and an axis value
in [0,7] in column 5. -/
def wellFormedOverlapLine (E : Env) (line : String) : Bool :=
  match (split line ',').map E.toInt with
  | [some v0, some v1, some v2, some v3, some v4, some v5] =>
    !(split line ',').contains "-0" && decide (0 ≤ v0) &&
      (v1 == 0 || v1 == 1) && (v2 == 0 || v2 == 1) && (v3 == 0 || v3 == 1) &&
      decide (0 ≤ v4) && decide (v4 ≤ 4) && decide (0 ≤ v5) && decide (v5 ≤ 7)
  | _ => false

/-- The value in column 0 of the line is at most `bound`. -/
def columnZeroAtMost (E : Env) (bound : Int) (line : String) : Bool :=
  match (split line ',').head? with
  | some field =>
    match E.toInt field with
    | some v => decide (v ≤ bound)
    | none => false
  | none => false

/-- The calls of the validation and loading interface, each with its arguments;
`loadFile` and `fileChanged` carry the file system they find. -/
inductive Call where
  | valuesFormattedProperly (data : List String)
  | inputValid (index : QModelIndex) (value : QVariant)
  | loadFile (fs : FileSystem) (path : String)
  | fileChanged (fs : FileSystem)
  | clearData

/-- One call on a document. -/
def Call.run (E : Env) (s : InputFile) : Call → InputFile
  | Call.valuesFormattedProperly data =>
    { s with m_fileCentering := (TASToolKit.valuesFormattedProperly E data s.m_fileCentering).2 }
  | Call.inputValid index value =>
    { s with m_fileCentering := (TASToolKit.inputValid E index value s.m_fileCentering).2 }
  | Call.loadFile fs path => (TASToolKit.loadFile E fs path s).2
  | Call.fileChanged fs => TASToolKit.fileChanged E fs s
  | Call.clearData => TASToolKit.clearData s

/-- A sequence of calls, first to last. -/
def runCalls (E : Env) (calls : List Call) (s : InputFile) : InputFile :=
  calls.foldl (Call.run E) s

/-- The document a fresh `InputFile` object holds. -/
def fresh : InputFile := InputFile.new 0

/-- A file system that holds one file. -/
def oneFile (path : String) (lines : List String) : FileSystem :=
  fun p => if p = path then some lines else none

/-! ## Edit history entries, document-level edits and swap -/

/-- Embeds `CellEditAction::operator==` (lines 30-33). -/
def CellEditAction.eq (self rhs : CellEditAction) : Bool :=
  self.m_rowIdx == rhs.m_rowIdx && self.m_colIdx == rhs.m_colIdx && self.m_cur == rhs.m_cur

/-- The call `inputValid(index, value)` on a document: the verdict, and the
document with the mode the call leaves; no other member is read or written by
lines 206-235. -/
def InputFile.inputValid (E : Env) (index : QModelIndex) (value : QVariant) (s : InputFile) :
    Bool × InputFile :=
  let r := TASToolKit.inputValid E index value s.m_fileCentering
  (r.1, { s with m_fileCentering := r.2 })

/-- The variant that holds the text "-0": it differs from the empty text,
`toFloat` converts it (to negative zero, with `ok = true`), and the `(int)` cast
of line 213 makes that 0. -/
def QVariant.minusZeroText : QVariant :=
  { eqEmpty := false, toFloat := some 0 }

/-- The body of `InputFileModel::writeFileOnDisk` is not part of the sources at
hand; it is taken as a parameter: from the disk and a document it gives the disk
and the document after the write. -/
abbrev DiskWriter := FileSystem → InputFile → FileSystem × InputFile

/-- Modelled from the spec: `InputFileModel::writeFileOnDisk` is only declared in
`InputFileModel.h`; the spec has it persist the in-memory state of the document
to disk, so it leaves the records, the centering mode and the two stacks of the
document as they are. -/
def DiskWriter.KeepsContent (w : DiskWriter) : Prop :=
  ∀ (fs : FileSystem) (d : InputFile),
    (w fs d).2.m_fileData = d.m_fileData ∧ (w fs d).2.m_fileCentering = d.m_fileCentering ∧
      (w fs d).2.m_undoStack = d.m_undoStack ∧ (w fs d).2.m_redoStack = d.m_redoStack

/-- A writer that stores the records, joined with commas, under the path of the
document and raises the self-modification flag; used to evaluate examples. -/
def sampleWriter : DiskWriter :=
  fun fs d =>
    (fun p => if p = d.m_filePath then some (d.m_fileData.map (String.intercalate ",")) else fs p,
      { d with m_bModified := true })

/-- Embeds `InputFile::swap` (lines 237-251) for two distinct documents: the six
`std::swap` calls, then `writeFileOnDisk` on this document and on `rhs`; the
viewport updates are outside the state. The result is the disk, this document
and `rhs`. -/
def swap (writeFileOnDisk : DiskWriter) (fs : FileSystem) (self rhs : InputFile) :
    FileSystem × InputFile × InputFile :=
  let self1 :=
    { self with
      m_fileData := rhs.m_fileData
      m_fileCentering := rhs.m_fileCentering
      m_undoStack := rhs.m_undoStack
      m_redoStack := rhs.m_redoStack
      pTableView := rhs.pTableView
      m_pFsWatcher := rhs.m_pFsWatcher }
  let rhs1 :=
    { rhs with
      m_fileData := self.m_fileData
      m_fileCentering := self.m_fileCentering
      m_undoStack := self.m_undoStack
      m_redoStack := self.m_redoStack
      pTableView := self.pTableView
      m_pFsWatcher := self.m_pFsWatcher }
  let w1 := writeFileOnDisk fs self1
  let w2 := writeFileOnDisk w1.1 rhs1
  (w2.1, w1.2, w2.2)

/-- The range a value of a column that is neither a button nor the d-pad lies in
when every value was checked under a mode that ended as `c`: 0..14 for Seven,
-7..7 for Zero, and the overlap 0..7 while the mode is still Unknown. -/
def withinModeRange (c : Centering) (v : Int) : Bool :=
  match c with
  | Centering.Unknown => decide (0 ≤ v) && decide (v ≤ 7)
  | Centering.Seven => decide (0 ≤ v) && decide (v ≤ 14)
  | Centering.Zero => decide (-7 ≤ v) && decide (v ≤ 7)

/-- The range of a value in column `i` under the final mode `c`, by the order of
the tests in `getLargestAcceptedValue`: d-pad 0..4, button 0..1, else the range
of the mode. -/
def withinColumnRange (E : Env) (c : Centering) (i v : Int) : Bool :=
  if E.DPAD_COL_IDX == i then decide (0 ≤ v) && decide (v ≤ 4)
  else if E.BUTTON_COL_IDXS.contains i then decide (0 ≤ v) && decide (v ≤ 1)
  else withinModeRange c v

/-- A loaded document in mode Seven with one edit in its undo stack. -/
def sampleA : InputFile :=
  { fresh with
    m_filePath := "a.csv"
    m_fileCentering := Centering.Seven
    m_fileData := [["0", "0", "0", "0", "2", "9"]]
    m_undoStack := [{ m_rowIdx := 0, m_colIdx := 5, m_prev := "4", m_cur := "9" }] }

/-- A loaded document in mode Zero with one edit in its redo stack. -/
def sampleB : InputFile :=
  { fresh with
    m_filePath := "b.csv"
    m_fileCentering := Centering.Zero
    m_fileData := [["0", "1", "0", "0", "0", "-3"], ["1", "0", "0", "0", "0", "2"]]
    m_redoStack := [{ m_rowIdx := 1, m_colIdx := 5, m_prev := "2", m_cur := "3" }]
    pTableView := 1 }

/-! ## Basic facts about the validator -/

theorem valueWithinBounds_keeps_resolved (E : Env) (i v : Int) (c : Centering)
    (hc : c ≠ Centering.Unknown) : (valueWithinBounds E i v c).2 = c := by
  unfold valueWithinBounds getLargestAcceptedValue getSmallestAcceptedValue
  simp only [hc, if_false]
  split_ifs <;> rfl

/-- The bounds test of a column that is neither a button nor the d-pad. -/
theorem valueWithinBounds_axis (E : Env) (i v : Int) (c : Centering)
    (hb : E.BUTTON_COL_IDXS.contains i = false) (hd : (E.DPAD_COL_IDX == i) = false) :
    ((valueWithinBounds E i v c).1 = true ↔
      (c = Centering.Unknown ∧ -7 ≤ v ∧ v ≤ 14) ∨ (c = Centering.Seven ∧ 0 ≤ v ∧ v ≤ 14) ∨
        (c = Centering.Zero ∧ -7 ≤ v ∧ v ≤ 7)) := by
  unfold valueWithinBounds getLargestAcceptedValue getSmallestAcceptedValue
    ableToDiscernCentering
  simp only [hb, hd]
  cases c
  · by_cases h7 : v > 7
    · simp [h7]; omega
    · by_cases h0 : v < 0
      · simp [h7, h0]; omega
      · simp [h7, h0]; omega
  · simp; omega
  · simp; omega

/-- The bounds test of a button column. -/
theorem valueWithinBounds_button (E : Env) (i v : Int) (c : Centering)
    (hb : E.BUTTON_COL_IDXS.contains i = true) (hd : (E.DPAD_COL_IDX == i) = false) :
    valueWithinBounds E i v c = (decide (v = 0 ∨ v = 1), c) := by
  unfold valueWithinBounds getLargestAcceptedValue getSmallestAcceptedValue
  simp only [hb, hd]
  simp only [Bool.true_or, if_true, Bool.false_eq_true, if_false, Prod.mk.injEq, and_true]
  rw [Bool.eq_iff_iff]
  simp
  omega

/-- The bounds test of the d-pad column. -/
theorem valueWithinBounds_dpad (E : Env) (i v : Int) (c : Centering)
    (hd : (E.DPAD_COL_IDX == i) = true) :
    valueWithinBounds E i v c = (decide (0 ≤ v ∧ v ≤ 4), c) := by
  unfold valueWithinBounds getLargestAcceptedValue getSmallestAcceptedValue
  simp only [hd]
  simp only [Bool.or_true, if_true, Prod.mk.injEq, and_true]
  rw [Bool.eq_iff_iff]
  simp
  omega

/-! ## A resolved mode is never touched by the validators -/

theorem valueRestrictionsAreMetFrom_keeps_resolved (E : Env) (data : List String) (i : Int)
    (c : Centering) (hc : c ≠ Centering.Unknown) :
    (valueRestrictionsAreMetFrom E data i c).2 = c := by
  induction data generalizing i with
  | nil => rfl
  | cons field rest ih =>
    unfold valueRestrictionsAreMetFrom
    by_cases hz : (field == "-0") = true
    · simp [hz]
    · simp only [hz, Bool.false_eq_true, if_false]
      cases hparse : E.toInt field with
      | none => rfl
      | some value =>
        simp only []
        have hk := valueWithinBounds_keeps_resolved E i value c hc
        by_cases hr : (valueWithinBounds E i value c).1 = true
        · simp only [hr, Bool.not_true, Bool.false_eq_true, if_false, hk]
          exact ih (i + 1)
        · simp [hr, hk]

/-- The two exits of `valuesFormattedProperly` after the count test return what
`valueRestrictionsAreMet` returned. -/
theorem valuesFormattedProperly_eq (E : Env) (data : List String) (c : Centering) :
    valuesFormattedProperly E data c =
      if ((data.length : Int) != E.NUM_INPUT_COLUMNS) = true then (false, c)
      else valueRestrictionsAreMetFrom E data 0 c := by
  unfold valuesFormattedProperly valueRestrictionsAreMet
  by_cases hn : ((data.length : Int) != E.NUM_INPUT_COLUMNS) = true
  · simp only [hn, if_true]
  · simp only [hn, if_false]
    cases hr : valueRestrictionsAreMetFrom E data 0 c with
    | mk ok c2 => cases ok <;> simp

theorem valuesFormattedProperly_keeps_resolved (E : Env) (data : List String) (c : Centering)
    (hc : c ≠ Centering.Unknown) : (valuesFormattedProperly E data c).2 = c := by
  rw [valuesFormattedProperly_eq]
  split_ifs
  · rfl
  · exact valueRestrictionsAreMetFrom_keeps_resolved E data 0 c hc

theorem inputValid_keeps_resolved (E : Env) (index : QModelIndex) (value : QVariant)
    (c : Centering) (hc : c ≠ Centering.Unknown) : (inputValid E index value c).2 = c := by
  unfold inputValid
  cases hv : value.toFloat with
  | none => split_ifs <;> rfl
  | some iValue =>
    cases c with
    | Unknown => exact absurd rfl hc
    | Zero => simp only []; split_ifs <;> rfl
    | Seven => simp only []; split_ifs <;> rfl

/-! ## The loading loop -/

/-- When every line passes in sequence, the loop appends every split line and
ends with Success. -/
theorem loadLines_of_validateLines (E : Env) (path : String) (lines : List String)
    (s : InputFile) (c : Centering) (h : validateLines E lines s.m_fileCentering = some c) :
    loadLines E path lines s =
      (FileStatus.Success,
        { s with
          m_fileCentering := c
          m_fileData := s.m_fileData ++ lines.map (fun line => split line ',')
          m_pFsWatcher := some [path] }) := by
  induction lines generalizing s with
  | nil =>
    simp only [validateLines, Option.some.injEq] at h
    simp [loadLines, h]
  | cons line rest ih =>
    unfold validateLines at h
    unfold loadLines
    by_cases hr : (valuesFormattedProperly E (split line ',') s.m_fileCentering).1 = true
    · simp only [hr, if_true] at h
      simp only [hr, Bool.not_true, Bool.false_eq_true, if_false]
      rw [ih _ h]
      simp
    · simp [hr] at h

/-- When the lines in front pass in sequence and the next one is rejected, the
loop stops there: Parse, the count of records held plus one as the failing line,
and the data cleared. -/
theorem loadLines_of_rejected (E : Env) (path : String) (front : List String) (bad : String)
    (rest : List String) (s : InputFile) (c : Centering)
    (hfront : validateLines E front s.m_fileCentering = some c)
    (hbad : (valuesFormattedProperly E (split bad ',') c).1 = false) :
    loadLines E path (front ++ bad :: rest) s =
      (FileStatus.Parse,
        { s with
          m_fileCentering := (valuesFormattedProperly E (split bad ',') c).2
          m_frameParseError := (s.m_fileData.length : Int) + (front.length : Int) + 1
          m_filePath := ""
          m_fileData := [] }) := by
  induction front generalizing s with
  | nil =>
    simp only [validateLines, Option.some.injEq] at hfront
    subst hfront
    simp [loadLines, hbad, clearData]
  | cons line more ih =>
    unfold validateLines at hfront
    rw [List.cons_append]
    unfold loadLines
    by_cases hr : (valuesFormattedProperly E (split line ',') s.m_fileCentering).1 = true
    · simp only [hr, if_true] at hfront
      simp only [hr, Bool.not_true, Bool.false_eq_true, if_false]
      rw [ih _ hfront]
      simp
      omega
    · simp [hr] at hfront

/-- The loop never changes a resolved mode. -/
theorem loadLines_keeps_resolved (E : Env) (path : String) (lines : List String)
    (s : InputFile) (hc : s.m_fileCentering ≠ Centering.Unknown) :
    (loadLines E path lines s).2.m_fileCentering = s.m_fileCentering := by
  induction lines generalizing s with
  | nil => rfl
  | cons line rest ih =>
    unfold loadLines
    have hk := valuesFormattedProperly_keeps_resolved E (split line ',') s.m_fileCentering hc
    by_cases hr : (valuesFormattedProperly E (split line ',') s.m_fileCentering).1 = true
    · simp only [hr, Bool.not_true, Bool.false_eq_true, if_false, hk]
      exact ih _ hc
    · simp [hr, hk, clearData]

theorem loadFile_keeps_resolved (E : Env) (fs : FileSystem) (path : String) (s : InputFile)
    (hc : s.m_fileCentering ≠ Centering.Unknown) :
    (loadFile E fs path s).2.m_fileCentering = s.m_fileCentering := by
  unfold loadFile
  cases hopen : fs path with
  | none => simp [hopen]
  | some lines =>
    simp only [hopen]
    exact loadLines_keeps_resolved E path lines { s with m_filePath := path } hc

/-- A line that passes has `NUM_INPUT_COLUMNS` fields. -/
theorem length_of_valuesFormattedProperly (E : Env) (data : List String) (c : Centering)
    (h : (valuesFormattedProperly E data c).1 = true) :
    (data.length : Int) = E.NUM_INPUT_COLUMNS := by
  rw [valuesFormattedProperly_eq] at h
  by_cases hn : ((data.length : Int) != E.NUM_INPUT_COLUMNS) = true
  · simp [hn] at h
  · simpa using hn

/-- The loop only ever stores records of `NUM_INPUT_COLUMNS` fields. -/
theorem loadLines_records_length (E : Env) (path : String) (lines : List String)
    (s : InputFile) (hs : ∀ r ∈ s.m_fileData, (r.length : Int) = E.NUM_INPUT_COLUMNS) :
    ∀ r ∈ (loadLines E path lines s).2.m_fileData, (r.length : Int) = E.NUM_INPUT_COLUMNS := by
  induction lines generalizing s with
  | nil => simpa [loadLines] using hs
  | cons line rest ih =>
    unfold loadLines
    by_cases hr : (valuesFormattedProperly E (split line ',') s.m_fileCentering).1 = true
    · simp only [hr, Bool.not_true, Bool.false_eq_true, if_false]
      apply ih
      intro r hmem
      simp only [List.mem_append, List.mem_singleton] at hmem
      rcases hmem with hmem | hmem
      · exact hs r hmem
      · rw [hmem]; exact length_of_valuesFormattedProperly E _ _ hr
    · simp [hr, clearData]

/-- A field written "-0" makes the loop of `valueRestrictionsAreMet` return
false, wherever it stands. -/
theorem valueRestrictionsAreMetFrom_minus_zero (E : Env) (data : List String) (i : Int)
    (c : Centering) (h : "-0" ∈ data) : (valueRestrictionsAreMetFrom E data i c).1 = false := by
  induction data generalizing i c with
  | nil => simp at h
  | cons field rest ih =>
    unfold valueRestrictionsAreMetFrom
    by_cases hz : (field == "-0") = true
    · simp [hz]
    · have hne : field ≠ "-0" := by simpa using hz
      have hrest : "-0" ∈ rest := by
        rcases List.mem_cons.mp h with h1 | h1
        · exact absurd h1.symm hne
        · exact h1
      simp only [hz, Bool.false_eq_true, if_false]
      cases hparse : E.toInt field with
      | none => rfl
      | some value =>
        simp only []
        by_cases hr : (valueWithinBounds E i value c).1 = true
        · simp only [hr, Bool.not_true, Bool.false_eq_true, if_false]
          exact ih (i + 1) _ hrest
        · simp [hr]

/-- A line that is rejected in every mode keeps the loop from ending in Success. -/
theorem loadLines_not_success (E : Env) (path : String) (lines : List String) (s : InputFile)
    (line : String) (hmem : line ∈ lines)
    (hrej : ∀ c, (valuesFormattedProperly E (split line ',') c).1 = false) :
    (loadLines E path lines s).1 ≠ FileStatus.Success := by
  induction lines generalizing s with
  | nil => simp at hmem
  | cons first rest ih =>
    unfold loadLines
    by_cases hr : (valuesFormattedProperly E (split first ',') s.m_fileCentering).1 = true
    · simp only [hr, Bool.not_true, Bool.false_eq_true, if_false]
      rcases List.mem_cons.mp hmem with h1 | h1
      · rw [← h1, hrej] at hr
        exact absurd hr (by simp)
      · exact ih _ h1
    · simp [hr]

/-! ## Stepping through the fields of a line -/

/-- A field that is not "-0", converts, and passes the bounds test lets the loop
go on to the next index in the mode the bounds test left. -/
theorem valueRestrictionsAreMetFrom_cons_ok (E : Env) (field : String) (rest : List String)
    (i v : Int) (c c2 : Centering) (hz : field ≠ "-0") (hparse : E.toInt field = some v)
    (hok : valueWithinBounds E i v c = (true, c2)) :
    valueRestrictionsAreMetFrom E (field :: rest) i c =
      valueRestrictionsAreMetFrom E rest (i + 1) c2 := by
  have hz2 : (field == "-0") = false := by simpa using hz
  rw [valueRestrictionsAreMetFrom]
  simp [hz2, hparse, hok]

/-- In a resolved mode, a field that converts to a value the bounds test of its
column rejects makes the loop return false. -/
theorem valueRestrictionsAreMetFrom_reject_at (E : Env) (data : List String) (i : Int)
    (j : Nat) (c : Centering) (field : String) (v : Int) (hc : c ≠ Centering.Unknown)
    (hfield : data[j]? = some field) (hparse : E.toInt field = some v)
    (hout : (valueWithinBounds E (i + (j : Int)) v c).1 = false) :
    (valueRestrictionsAreMetFrom E data i c).1 = false := by
  induction data generalizing i j with
  | nil => simp at hfield
  | cons first rest ih =>
    unfold valueRestrictionsAreMetFrom
    by_cases hz : (first == "-0") = true
    · simp [hz]
    · simp only [hz, Bool.false_eq_true, if_false]
      cases j with
      | zero =>
        simp only [List.getElem?_cons_zero, Option.some.injEq] at hfield
        subst hfield
        simp only [hparse]
        have hout2 : (valueWithinBounds E i v c).1 = false := by simpa using hout
        simp [hout2]
      | succ k =>
        simp only [List.getElem?_cons_succ] at hfield
        cases hp : E.toInt first with
        | none => rfl
        | some value =>
          simp only []
          by_cases hr : (valueWithinBounds E i value c).1 = true
          · simp only [hr, Bool.not_true, Bool.false_eq_true, if_false,
              valueWithinBounds_keeps_resolved E i value c hc]
            apply ih (i + 1) k hfield
            have hidx : i + 1 + (k : Int) = i + ((k + 1 : Nat) : Int) := by push_cast; ring
            rw [hidx]
            exact hout
          · simp [hr]

/-- In mode Unknown a value of [0,7] passes the bounds test of a column that is
neither a button nor the d-pad, and the mode stays Unknown. -/
theorem valueWithinBounds_overlap (E : Env) (i v : Int)
    (hb : E.BUTTON_COL_IDXS.contains i = false) (hd : (E.DPAD_COL_IDX == i) = false)
    (h0 : 0 ≤ v) (h7 : v ≤ 7) :
    valueWithinBounds E i v Centering.Unknown = (true, Centering.Unknown) := by
  unfold valueWithinBounds getLargestAcceptedValue getSmallestAcceptedValue
    ableToDiscernCentering
  have h7n : ¬ v > 7 := by omega
  have h0n : ¬ v < 0 := by omega
  simp only [hb, hd]
  simp [h7n, h0n]

/-- A six-field line of the spec's layout whose values in columns 0 and 5 lie in
[0,7], with legal buttons and d-pad, passes in mode Unknown and leaves it. -/
theorem valuesFormattedProperly_overlap (fc : Int) (toInt : String → Option Int)
    (data : List String) (v0 v1 v2 v3 v4 v5 : Int)
    (hmap : data.map toInt = [some v0, some v1, some v2, some v3, some v4, some v5])
    (hz : "-0" ∉ data) (h0 : 0 ≤ v0 ∧ v0 ≤ 7) (h1 : v1 = 0 ∨ v1 = 1) (h2 : v2 = 0 ∨ v2 = 1)
    (h3 : v3 = 0 ∨ v3 = 1) (h4 : 0 ≤ v4 ∧ v4 ≤ 4) (h5 : 0 ≤ v5 ∧ v5 ≤ 7) :
    valuesFormattedProperly (specEnv fc toInt) data Centering.Unknown =
      (true, Centering.Unknown) := by
  obtain ⟨f0, f1, f2, f3, f4, f5, hdata⟩ : ∃ f0 f1 f2 f3 f4 f5, data = [f0, f1, f2, f3, f4, f5] := by
    rcases data with _ | ⟨f0, _ | ⟨f1, _ | ⟨f2, _ | ⟨f3, _ | ⟨f4, _ | ⟨f5, _ | ⟨f6, tl⟩⟩⟩⟩⟩⟩⟩ <;>
      simp at hmap
    exact ⟨f0, f1, f2, f3, f4, f5, rfl⟩
  subst hdata
  · simp only [List.map_cons, List.map_nil, List.cons.injEq, and_true] at hmap
    obtain ⟨p0, p1, p2, p3, p4, p5⟩ := hmap
    simp only [List.mem_cons, List.mem_singleton, List.not_mem_nil, or_false, not_or] at hz
    obtain ⟨z0, z1, z2, z3, z4, z5⟩ := hz
    rw [valuesFormattedProperly_eq]
    have hlen : ((([f0, f1, f2, f3, f4, f5] : List String).length : Int) !=
        (specEnv fc toInt).NUM_INPUT_COLUMNS) = false := by
      simp [specEnv]
    simp only [hlen, Bool.false_eq_true, if_false]
    rw [valueRestrictionsAreMetFrom_cons_ok (specEnv fc toInt) f0 _ 0 v0 _ Centering.Unknown
      (Ne.symm z0) p0
      (valueWithinBounds_overlap _ _ _ (by simp [specEnv]) (by simp [specEnv]) h0.1 h0.2)]
    rw [valueRestrictionsAreMetFrom_cons_ok (specEnv fc toInt) f1 _ (0 + 1) v1 _ Centering.Unknown
      (Ne.symm z1) p1
      (by rw [valueWithinBounds_button _ _ _ _ (by simp [specEnv]) (by simp [specEnv])]
          simp [h1])]
    rw [valueRestrictionsAreMetFrom_cons_ok (specEnv fc toInt) f2 _ (0 + 1 + 1) v2 _
      Centering.Unknown (Ne.symm z2) p2
      (by rw [valueWithinBounds_button _ _ _ _ (by simp [specEnv]) (by simp [specEnv])]
          simp [h2])]
    rw [valueRestrictionsAreMetFrom_cons_ok (specEnv fc toInt) f3 _ (0 + 1 + 1 + 1) v3 _
      Centering.Unknown (Ne.symm z3) p3
      (by rw [valueWithinBounds_button _ _ _ _ (by simp [specEnv]) (by simp [specEnv])]
          simp [h3])]
    rw [valueRestrictionsAreMetFrom_cons_ok (specEnv fc toInt) f4 _ (0 + 1 + 1 + 1 + 1) v4 _
      Centering.Unknown (Ne.symm z4) p4
      (by rw [valueWithinBounds_dpad _ _ _ _ (by simp [specEnv])]
          simp [h4])]
    rw [valueRestrictionsAreMetFrom_cons_ok (specEnv fc toInt) f5 _ (0 + 1 + 1 + 1 + 1 + 1) v5 _
      Centering.Unknown (Ne.symm z5) p5
      (valueWithinBounds_overlap _ _ _ (by simp [specEnv]) (by simp [specEnv]) h5.1 h5.2)]
    rfl

/-- A well-formed line whose column 0 is at most 7 passes in mode Unknown and
leaves the mode Unknown. -/
theorem valuesFormattedProperly_of_wellFormed (fc : Int) (toInt : String → Option Int)
    (line : String) (hwf : wellFormedOverlapLine (specEnv fc toInt) line = true)
    (hcol : columnZeroAtMost (specEnv fc toInt) 7 line = true) :
    valuesFormattedProperly (specEnv fc toInt) (split line ',') Centering.Unknown =
      (true, Centering.Unknown) := by
  unfold wellFormedOverlapLine at hwf
  unfold columnZeroAtMost at hcol
  generalize split line ',' = data at hwf hcol
  split at hwf
  · rename_i v0 v1 v2 v3 v4 v5 hmap
    have hmap2 : data.map toInt = [some v0, some v1, some v2, some v3, some v4, some v5] := hmap
    simp only [Bool.and_eq_true, Bool.not_eq_true', Bool.or_eq_true, beq_iff_eq,
      decide_eq_true_eq] at hwf
    obtain ⟨⟨⟨⟨⟨⟨⟨⟨hz, h0⟩, h1⟩, h2⟩, h3⟩, h4a⟩, h4b⟩, h5a⟩, h5b⟩ := hwf
    have hz2 : "-0" ∉ data := by
      intro hmem
      have : data.contains "-0" = true := by simpa using hmem
      rw [this] at hz
      exact absurd hz (by simp)
    have h07 : v0 ≤ 7 := by
      rcases data with _ | ⟨f0, tl⟩
      · simp at hmap2
      · simp only [List.map_cons, List.cons.injEq] at hmap2
        have hp : (specEnv fc toInt).toInt f0 = some v0 := hmap2.1
        simp only [List.head?_cons, hp, decide_eq_true_eq] at hcol
        exact hcol
    exact valuesFormattedProperly_overlap fc toInt data v0 v1 v2 v3 v4 v5 hmap2 hz2 ⟨h0, h07⟩ h1 h2
      h3 ⟨h4a, h4b⟩ ⟨h5a, h5b⟩
  · simp at hwf

/-- Lines that each pass in mode Unknown and leave it pass in sequence. -/
theorem validateLines_of_all_unknown (E : Env) (lines : List String)
    (h : ∀ line ∈ lines,
      valuesFormattedProperly E (split line ',') Centering.Unknown = (true, Centering.Unknown)) :
    validateLines E lines Centering.Unknown = some Centering.Unknown := by
  induction lines with
  | nil => rfl
  | cons line rest ih =>
    unfold validateLines
    rw [h line (List.mem_cons_self _ _)]
    simp only [if_true]
    exact ih (fun l hl => h l (List.mem_cons_of_mem _ hl))

theorem fileChanged_keeps_resolved (E : Env) (fs : FileSystem) (s : InputFile)
    (hc : s.m_fileCentering ≠ Centering.Unknown) :
    (fileChanged E fs s).m_fileCentering = s.m_fileCentering := by
  unfold fileChanged
  by_cases hm : s.m_bModified = true
  · rw [if_pos hm]
    dsimp only
    split_ifs <;> rfl
  · rw [if_neg hm]
    exact loadFile_keeps_resolved E fs s.m_filePath { s with m_fileData := [] } hc

theorem Call.run_keeps_resolved (E : Env) (s : InputFile) (call : Call)
    (hc : s.m_fileCentering ≠ Centering.Unknown) :
    (Call.run E s call).m_fileCentering = s.m_fileCentering := by
  cases call with
  | valuesFormattedProperly data =>
    exact valuesFormattedProperly_keeps_resolved E data s.m_fileCentering hc
  | inputValid index value => exact inputValid_keeps_resolved E index value s.m_fileCentering hc
  | loadFile fs path => exact loadFile_keeps_resolved E fs path s hc
  | fileChanged fs => exact fileChanged_keeps_resolved E fs s hc
  | clearData => rfl

theorem runCalls_keeps_resolved (E : Env) (calls : List Call) (s : InputFile)
    (hc : s.m_fileCentering ≠ Centering.Unknown) :
    (runCalls E calls s).m_fileCentering = s.m_fileCentering := by
  induction calls generalizing s with
  | nil => rfl
  | cons call rest ih =>
    have h1 := Call.run_keeps_resolved E s call hc
    have h2 := ih (Call.run E s call) (by rw [h1]; exact hc)
    simp only [runCalls, List.foldl_cons] at h2 ⊢
    rw [h2, h1]

/-! ## Loading does not read `FRAMECOUNT_COLUMN` -/

theorem valueWithinBounds_framecount (E : Env) (fc : Int) (i v : Int) (c : Centering) :
    valueWithinBounds { E with FRAMECOUNT_COLUMN := fc } i v c = valueWithinBounds E i v c :=
  rfl

theorem valueRestrictionsAreMetFrom_framecount (E : Env) (fc : Int) (data : List String)
    (i : Int) (c : Centering) :
    valueRestrictionsAreMetFrom { E with FRAMECOUNT_COLUMN := fc } data i c =
      valueRestrictionsAreMetFrom E data i c := by
  induction data generalizing i c with
  | nil => rfl
  | cons field rest ih =>
    rw [valueRestrictionsAreMetFrom, valueRestrictionsAreMetFrom]
    simp only [valueWithinBounds_framecount, ih]

theorem valuesFormattedProperly_framecount (E : Env) (fc : Int) (data : List String)
    (c : Centering) :
    valuesFormattedProperly { E with FRAMECOUNT_COLUMN := fc } data c =
      valuesFormattedProperly E data c := by
  rw [valuesFormattedProperly_eq, valuesFormattedProperly_eq,
    valueRestrictionsAreMetFrom_framecount]

theorem loadLines_framecount (E : Env) (fc : Int) (path : String) (lines : List String)
    (s : InputFile) :
    loadLines { E with FRAMECOUNT_COLUMN := fc } path lines s = loadLines E path lines s := by
  induction lines generalizing s with
  | nil => rfl
  | cons line rest ih =>
    rw [loadLines, loadLines]
    simp only [valuesFormattedProperly_framecount, ih]

theorem loadFile_framecount (E : Env) (fc : Int) (fs : FileSystem) (path : String)
    (s : InputFile) :
    loadFile { E with FRAMECOUNT_COLUMN := fc } fs path s = loadFile E fs path s := by
  unfold loadFile
  simp only [loadLines_framecount]

/-! ## Range table and agreement of the two validators -/

/-- C1. Load-time range table: with the spec's column roles, for every column `c`
of a record (0 to 5), every integer `v` and every centering mode `m`, the bounds
test of one field (getSmallestAcceptedValue followed by getLargestAcceptedValue)
accepts `v` iff `c` is in 1..3 and `v` is 0 or 1; or `c = 4` and `0 ≤ v ≤ 4`; or
`c` is 0 or 5 and (`m = Unknown` and `-7 ≤ v ≤ 14`, or `m = Seven` and
`0 ≤ v ≤ 14`, or `m = Zero` and `-7 ≤ v ≤ 7`). -/
theorem load_range_table (fc : Int) (toInt : String → Option Int) (c v : Int) (m : Centering)
    (hc0 : 0 ≤ c) (hc5 : c ≤ 5) :
    ((valueWithinBounds (specEnv fc toInt) c v m).1 = true ↔
      ((1 ≤ c ∧ c ≤ 3) ∧ (v = 0 ∨ v = 1)) ∨ (c = 4 ∧ 0 ≤ v ∧ v ≤ 4) ∨
        ((c = 0 ∨ c = 5) ∧
          ((m = Centering.Unknown ∧ -7 ≤ v ∧ v ≤ 14) ∨ (m = Centering.Seven ∧ 0 ≤ v ∧ v ≤ 14) ∨
            (m = Centering.Zero ∧ -7 ≤ v ∧ v ≤ 7)))) := by
  interval_cases c
  · rw [valueWithinBounds_axis _ _ _ _ (by simp [specEnv]) (by simp [specEnv])]; simp
  · rw [valueWithinBounds_button _ _ _ _ (by simp [specEnv]) (by simp [specEnv])]; simp
  · rw [valueWithinBounds_button _ _ _ _ (by simp [specEnv]) (by simp [specEnv])]; simp
  · rw [valueWithinBounds_button _ _ _ _ (by simp [specEnv]) (by simp [specEnv])]; simp
  · rw [valueWithinBounds_dpad _ _ _ _ (by simp [specEnv])]; simp
  · rw [valueWithinBounds_axis _ _ _ _ (by simp [specEnv]) (by simp [specEnv])]; simp

/-- Witness of C1: the axis column in mode Seven accepts 14. -/
theorem load_range_table_witness :
    (valueWithinBounds (specEnv 0 qtToInt) 5 14 Centering.Seven).1 = true ↔
      ((1 ≤ (5 : Int) ∧ (5 : Int) ≤ 3) ∧ ((14 : Int) = 0 ∨ (14 : Int) = 1)) ∨
        ((5 : Int) = 4 ∧ 0 ≤ (14 : Int) ∧ (14 : Int) ≤ 4) ∨
        (((5 : Int) = 0 ∨ (5 : Int) = 5) ∧
          ((Centering.Seven = Centering.Unknown ∧ -7 ≤ (14 : Int) ∧ (14 : Int) ≤ 14) ∨
            (Centering.Seven = Centering.Seven ∧ 0 ≤ (14 : Int) ∧ (14 : Int) ≤ 14) ∨
            (Centering.Seven = Centering.Zero ∧ -7 ≤ (14 : Int) ∧ (14 : Int) ≤ 7))) :=
  load_range_table 0 qtToInt 5 14 Centering.Seven (by decide) (by decide)

/-- C2. The edit-time and the load-time validator agree: for every file column
`c` (the edit column being `c + FRAMECOUNT_COLUMN`), every proposed value that
converts to the integer `v` and every centering mode, inputValid accepts iff the
load-time bounds test of column `c` accepts `v`. The column constants are any
in which the d-pad column is not a button column, as in the spec's roles. -/
theorem inputValid_agrees_with_load (E : Env) (index : QModelIndex) (value : QVariant)
    (c v : Int) (m : Centering) (hlayout : E.BUTTON_COL_IDXS.contains E.DPAD_COL_IDX = false)
    (hcol : index.column = c + E.FRAMECOUNT_COLUMN)
    (hne : value.eqEmpty = false) (hv : value.toFloat = some v) :
    (inputValid E index value m).1 = (valueWithinBounds E c v m).1 := by
  have hsub : index.column - E.FRAMECOUNT_COLUMN = c := by omega
  unfold inputValid
  simp only [hne, hv, hsub, Bool.false_eq_true, if_false]
  by_cases hd : (E.DPAD_COL_IDX == c) = true
  · have hd2 : E.DPAD_COL_IDX = c := by simpa using hd
    have hb : E.BUTTON_COL_IDXS.contains c = false := hd2 ▸ hlayout
    have hcol2 : (index.column == E.DPAD_COL_IDX + E.FRAMECOUNT_COLUMN) = true := by
      simp [hcol, hd2]
    rw [valueWithinBounds_dpad _ _ _ _ hd]
    simp only [hb, hcol2, Bool.false_eq_true, if_false, if_true]
    rw [Bool.eq_iff_iff]
    simp
  · have hd1 : (E.DPAD_COL_IDX == c) = false := by simpa using hd
    have hcol2 : (index.column == E.DPAD_COL_IDX + E.FRAMECOUNT_COLUMN) = false := by
      have hne2 : E.DPAD_COL_IDX ≠ c := by simpa using hd
      have hne3 : index.column ≠ E.DPAD_COL_IDX + E.FRAMECOUNT_COLUMN := by omega
      simpa using hne3
    by_cases hb : E.BUTTON_COL_IDXS.contains c = true
    · rw [valueWithinBounds_button _ _ _ _ hb hd1]
      simp only [hb, if_true]
      rw [Bool.eq_iff_iff]
      simp
    · have hb1 : E.BUTTON_COL_IDXS.contains c = false := by simpa using hb
      have hax := valueWithinBounds_axis E c v m hb1 hd1
      rw [Bool.eq_iff_iff, hax]
      simp only [hb1, hcol2, Bool.false_eq_true, if_false]
      cases m
      · by_cases hr : (decide (v < -7) || decide (v > 14)) = true
        · simp only [hr, if_true]
          have hr2 : v < -7 ∨ v > 14 := by simpa using hr
          simp
          omega
        · simp only [hr, if_false]
          have hr2 : ¬ (v < -7 ∨ v > 14) := by simpa using hr
          simp
          omega
      · simp
      · simp

/-- Witness of C2: the axis cell of the spec's layout, value 9, mode Unknown. -/
theorem inputValid_agrees_with_load_witness :
    (inputValid (specEnv 1 qtToInt) { row := 0, column := 6 } (QVariant.ofInt 9)
        Centering.Unknown).1 =
      (valueWithinBounds (specEnv 1 qtToInt) 5 9 Centering.Unknown).1 :=
  inputValid_agrees_with_load (specEnv 1 qtToInt) { row := 0, column := 6 } (QVariant.ofInt 9)
    5 9 Centering.Unknown (by decide) (by decide) rfl rfl

/-! ## Loading a file -/

/-- C3. Load failure is all-or-nothing and reports the right line: for every
openable file and every document with no records at entry, if the lines in front
of a line all pass valuesFormattedProperly in file order (the centering mode
threaded through) and that line is rejected, then loadFile returns Parse,
m_frameParseError is the 1-based position of that line, and afterwards the record
table is empty and the path is empty. -/
theorem loadFile_parse_failure (E : Env) (fs : FileSystem) (path : String) (s : InputFile)
    (front : List String) (bad : String) (rest : List String) (c : Centering)
    (hopen : fs path = some (front ++ bad :: rest)) (hempty : s.m_fileData = [])
    (hfront : validateLines E front s.m_fileCentering = some c)
    (hbad : (valuesFormattedProperly E (split bad ',') c).1 = false) :
    (loadFile E fs path s).1 = FileStatus.Parse ∧
      (loadFile E fs path s).2.m_frameParseError = (front.length : Int) + 1 ∧
      (loadFile E fs path s).2.m_fileData = [] ∧ (loadFile E fs path s).2.m_filePath = "" := by
  unfold loadFile
  simp only [hopen]
  rw [loadLines_of_rejected E path front bad rest { s with m_filePath := path } c hfront hbad]
  simp [hempty]

/-- Witness of C3: the second line has five fields. -/
theorem loadFile_parse_failure_witness :
    (loadFile (specEnv 1 qtToInt) (oneFile "in.csv" ["0,0,0,0,2,4", "1,0,1,0,2"]) "in.csv"
        fresh).1 = FileStatus.Parse ∧
      (loadFile (specEnv 1 qtToInt) (oneFile "in.csv" ["0,0,0,0,2,4", "1,0,1,0,2"]) "in.csv"
        fresh).2.m_frameParseError = ((["0,0,0,0,2,4"] : List String).length : Int) + 1 ∧
      (loadFile (specEnv 1 qtToInt) (oneFile "in.csv" ["0,0,0,0,2,4", "1,0,1,0,2"]) "in.csv"
        fresh).2.m_fileData = [] ∧
      (loadFile (specEnv 1 qtToInt) (oneFile "in.csv" ["0,0,0,0,2,4", "1,0,1,0,2"]) "in.csv"
        fresh).2.m_filePath = "" :=
  loadFile_parse_failure (specEnv 1 qtToInt) (oneFile "in.csv" ["0,0,0,0,2,4", "1,0,1,0,2"])
    "in.csv" fresh ["0,0,0,0,2,4"] "1,0,1,0,2" [] Centering.Unknown (by decide) rfl
    (by decide) (by decide)

/-- C4. Load success keeps every line in order with exactly 6 fields: with six
input columns, for every document with no records at entry, if the file opens and
every line passes valuesFormattedProperly in sequence, loadFile returns Success
and the record table is the list of the lines each split on the comma, in file
order, every record with exactly 6 fields; and after any loadFile from an empty
table every stored record has exactly 6 fields. -/
theorem loadFile_success_keeps_lines (fc : Int) (toInt : String → Option Int)
    (fs : FileSystem) (path : String) (s : InputFile) (hempty : s.m_fileData = []) :
    (∀ lines c, fs path = some lines →
        validateLines (specEnv fc toInt) lines s.m_fileCentering = some c →
        (loadFile (specEnv fc toInt) fs path s).1 = FileStatus.Success ∧
          (loadFile (specEnv fc toInt) fs path s).2.m_fileData =
            lines.map (fun line => split line ',')) ∧
      ∀ r ∈ (loadFile (specEnv fc toInt) fs path s).2.m_fileData, r.length = 6 := by
  constructor
  · intro lines c hopen hvalid
    unfold loadFile
    simp only [hopen]
    rw [loadLines_of_validateLines (specEnv fc toInt) path lines { s with m_filePath := path } c
      hvalid]
    simp [hempty]
  · intro r hr
    have hlen : ∀ r ∈ (loadFile (specEnv fc toInt) fs path s).2.m_fileData,
        (r.length : Int) = (specEnv fc toInt).NUM_INPUT_COLUMNS := by
      unfold loadFile
      cases hopen : fs path with
      | none => simp [hopen, hempty]
      | some lines =>
        simp only [hopen]
        exact loadLines_records_length (specEnv fc toInt) path lines { s with m_filePath := path }
          (by simp [hempty])
    have h6 := hlen r hr
    simp only [specEnv] at h6
    omega

/-- Witness of C4: a two-line file loaded into a fresh document. -/
theorem loadFile_success_keeps_lines_witness :
    (∀ lines c, oneFile "in.csv" ["0,0,0,0,2,4", "1,0,1,0,2,9"] "in.csv" = some lines →
        validateLines (specEnv 1 qtToInt) lines fresh.m_fileCentering = some c →
        (loadFile (specEnv 1 qtToInt) (oneFile "in.csv" ["0,0,0,0,2,4", "1,0,1,0,2,9"]) "in.csv"
            fresh).1 = FileStatus.Success ∧
          (loadFile (specEnv 1 qtToInt) (oneFile "in.csv" ["0,0,0,0,2,4", "1,0,1,0,2,9"])
            "in.csv" fresh).2.m_fileData = lines.map (fun line => split line ',')) ∧
      ∀ r ∈ (loadFile (specEnv 1 qtToInt) (oneFile "in.csv" ["0,0,0,0,2,4", "1,0,1,0,2,9"])
          "in.csv" fresh).2.m_fileData, r.length = 6 :=
  loadFile_success_keeps_lines 1 qtToInt (oneFile "in.csv" ["0,0,0,0,2,4", "1,0,1,0,2,9"])
    "in.csv" fresh rfl

/-- C5. The literal field "-0" is always rejected at load: for every list of
fields that contains the text "-0" at any position and every centering mode,
valuesFormattedProperly returns false; so loadFile never returns Success on a
file one of whose lines splits into such a list. -/
theorem minus_zero_rejected_at_load (E : Env) (data : List String) (c : Centering)
    (hmem : "-0" ∈ data) :
    (valuesFormattedProperly E data c).1 = false ∧
      ∀ (fs : FileSystem) (path : String) (s : InputFile) (lines : List String) (line : String),
        fs path = some lines → line ∈ lines → split line ',' = data →
        (loadFile E fs path s).1 ≠ FileStatus.Success := by
  have hrej : ∀ c2, (valuesFormattedProperly E data c2).1 = false := by
    intro c2
    rw [valuesFormattedProperly_eq]
    split_ifs
    · rfl
    · exact valueRestrictionsAreMetFrom_minus_zero E data 0 c2 hmem
  refine ⟨hrej c, ?_⟩
  intro fs path s lines line hopen hline hsplit
  unfold loadFile
  simp only [hopen]
  exact loadLines_not_success E path lines _ line hline (by rw [hsplit]; exact hrej)

/-- Witness of C5: the axis field of the only line is written "-0". -/
theorem minus_zero_rejected_at_load_witness :
    (valuesFormattedProperly (specEnv 1 qtToInt) ["0", "0", "0", "0", "0", "-0"]
        Centering.Unknown).1 = false ∧
      ∀ (fs : FileSystem) (path : String) (s : InputFile) (lines : List String) (line : String),
        fs path = some lines → line ∈ lines → split line ',' = ["0", "0", "0", "0", "0", "-0"] →
        (loadFile (specEnv 1 qtToInt) fs path s).1 ≠ FileStatus.Success :=
  minus_zero_rejected_at_load (specEnv 1 qtToInt) ["0", "0", "0", "0", "0", "-0"]
    Centering.Unknown (by decide)

/-- Counterexample to C6 as stated: the one-line file "10,0,0,0,0,5" is well
formed in the property's sense (frame count 10 is non-negative, the axis value 5
lies in [0,7]), yet it is not the case that loading it into a fresh document
returns Success with the mode still Unknown: column 0 falls to the axis rule and
the value 10 resolves the mode to Seven. -/
theorem overlap_load_counterexample :
    wellFormedOverlapLine (specEnv 1 qtToInt) "10,0,0,0,0,5" = true ∧
      (loadFile (specEnv 1 qtToInt) (oneFile "in.csv" ["10,0,0,0,0,5"]) "in.csv"
        fresh).2.m_fileCentering = Centering.Seven ∧
      ¬ ((loadFile (specEnv 1 qtToInt) (oneFile "in.csv" ["10,0,0,0,0,5"]) "in.csv" fresh).1
          = FileStatus.Success ∧
        (loadFile (specEnv 1 qtToInt) (oneFile "in.csv" ["10,0,0,0,0,5"]) "in.csv"
          fresh).2.m_fileCentering = Centering.Unknown) := by
  decide

/-- C6 (amended). Files with values in the overlap range leave the mode
undecided: for every openable file whose lines are well formed (exactly 6 integer
fields, none written "-0", buttons 0 or 1, d-pad 0..4) and whose values in the
columns that are neither a button nor the d-pad (columns 0 and 5) all lie in
[0,7], loadFile on a document in mode Unknown (a fresh document in particular)
returns Success and the centering mode is still Unknown after the load. -/
theorem overlap_load_leaves_mode_unknown (fc : Int) (toInt : String → Option Int)
    (fs : FileSystem) (path : String) (s : InputFile) (lines : List String)
    (hopen : fs path = some lines) (hmode : s.m_fileCentering = Centering.Unknown)
    (hwf : ∀ line ∈ lines, wellFormedOverlapLine (specEnv fc toInt) line = true ∧
      columnZeroAtMost (specEnv fc toInt) 7 line = true) :
    (loadFile (specEnv fc toInt) fs path s).1 = FileStatus.Success ∧
      (loadFile (specEnv fc toInt) fs path s).2.m_fileCentering = Centering.Unknown := by
  have hvalid : validateLines (specEnv fc toInt) lines Centering.Unknown =
      some Centering.Unknown :=
    validateLines_of_all_unknown _ lines (fun line hl =>
      valuesFormattedProperly_of_wellFormed fc toInt line (hwf line hl).1 (hwf line hl).2)
  unfold loadFile
  simp only [hopen]
  rw [loadLines_of_validateLines (specEnv fc toInt) path lines { s with m_filePath := path }
    Centering.Unknown (by simpa [hmode] using hvalid)]
  simp

/-- Witness of C6 (amended): two lines whose columns 0 and 5 lie in [0,7]. -/
theorem overlap_load_leaves_mode_unknown_witness :
    (loadFile (specEnv 1 qtToInt) (oneFile "in.csv" ["0,0,0,0,2,4", "1,0,1,0,2,7"]) "in.csv"
        fresh).1 = FileStatus.Success ∧
      (loadFile (specEnv 1 qtToInt) (oneFile "in.csv" ["0,0,0,0,2,4", "1,0,1,0,2,7"]) "in.csv"
        fresh).2.m_fileCentering = Centering.Unknown :=
  overlap_load_leaves_mode_unknown 1 qtToInt (oneFile "in.csv" ["0,0,0,0,2,4", "1,0,1,0,2,7"])
    "in.csv" fresh ["0,0,0,0,2,4", "1,0,1,0,2,7"] (by decide) rfl (by decide)

/-- C7. Early evidence binds later lines in the same load: for every openable
file loaded into a document with no records and mode Unknown, if the lines in
front of line k all pass and leave the mode Seven and line k has a negative axis
value (column 5), loadFile returns Parse with m_frameParseError = k; and if they
leave the mode Zero and line k has an axis value greater than 7, loadFile returns
Parse with m_frameParseError = k. -/
theorem early_evidence_binds_later_lines (fc : Int) (toInt : String → Option Int)
    (fs : FileSystem) (path : String) (s : InputFile) (front : List String) (bad : String)
    (rest : List String) (field : String) (v : Int) (c : Centering)
    (hopen : fs path = some (front ++ bad :: rest)) (hdata : s.m_fileData = [])
    (hmode : s.m_fileCentering = Centering.Unknown)
    (hfront : validateLines (specEnv fc toInt) front Centering.Unknown = some c)
    (haxis : (split bad ',')[5]? = some field) (hv : toInt field = some v)
    (hout : (c = Centering.Seven ∧ v < 0) ∨ (c = Centering.Zero ∧ 7 < v)) :
    (loadFile (specEnv fc toInt) fs path s).1 = FileStatus.Parse ∧
      (loadFile (specEnv fc toInt) fs path s).2.m_frameParseError = (front.length : Int) + 1 := by
  have hc : c ≠ Centering.Unknown := by
    rcases hout with h | h <;> simp [h.1]
  have hrange : (valueWithinBounds (specEnv fc toInt) (0 + ((5 : Nat) : Int)) v c).1 = false := by
    have hax := valueWithinBounds_axis (specEnv fc toInt) (0 + ((5 : Nat) : Int)) v c
      (by simp [specEnv]) (by simp [specEnv])
    cases hb : (valueWithinBounds (specEnv fc toInt) (0 + ((5 : Nat) : Int)) v c).1 with
    | false => rfl
    | true =>
      have h3 := hax.mp hb
      rcases hout with h | h <;> rcases h3 with h3 | h3 | h3 <;> simp [h.1] at h3 <;> omega
  have hbad : (valuesFormattedProperly (specEnv fc toInt) (split bad ',') c).1 = false := by
    rw [valuesFormattedProperly_eq]
    split_ifs
    · rfl
    · exact valueRestrictionsAreMetFrom_reject_at (specEnv fc toInt) (split bad ',') 0 5 c field v
        hc haxis hv hrange
  have h := loadFile_parse_failure (specEnv fc toInt) fs path s front bad rest c hopen hdata
    (by rw [hmode]; exact hfront) hbad
  exact ⟨h.1, h.2.1⟩

/-- Witness of C7: axis value 10 on line 1, then -3 on line 2. -/
theorem early_evidence_binds_later_lines_witness :
    (loadFile (specEnv 1 qtToInt) (oneFile "in.csv" ["0,0,0,0,0,10", "1,0,0,0,0,-3"]) "in.csv"
        fresh).1 = FileStatus.Parse ∧
      (loadFile (specEnv 1 qtToInt) (oneFile "in.csv" ["0,0,0,0,0,10", "1,0,0,0,0,-3"]) "in.csv"
        fresh).2.m_frameParseError = ((["0,0,0,0,0,10"] : List String).length : Int) + 1 :=
  early_evidence_binds_later_lines 1 qtToInt (oneFile "in.csv" ["0,0,0,0,0,10", "1,0,0,0,0,-3"])
    "in.csv" fresh ["0,0,0,0,0,10"] "1,0,0,0,0,-3" [] "-3" (-3) Centering.Seven (by decide) rfl
    rfl (by decide) (by decide) (by decide) (Or.inl ⟨rfl, by decide⟩)

/-- C8. Load then edit example: loading the two lines "0,0,0,0,2,4" and
"1,0,1,0,2,9" into a fresh document returns Success with both records stored and
the mode resolved to Seven, and afterwards inputValid for the axis cell of line 1
with proposed value -1 returns false. In general, after any load that leaves the
mode Seven, inputValid on an axis cell returns false for every negative integer. -/
theorem load_then_edit_example (fc : Int) (toInt : String → Option Int) :
    ((loadFile (specEnv fc qtToInt) (oneFile "in.csv" ["0,0,0,0,2,4", "1,0,1,0,2,9"]) "in.csv"
          fresh).1 = FileStatus.Success ∧
        (loadFile (specEnv fc qtToInt) (oneFile "in.csv" ["0,0,0,0,2,4", "1,0,1,0,2,9"]) "in.csv"
          fresh).2.m_fileData =
          [["0", "0", "0", "0", "2", "4"], ["1", "0", "1", "0", "2", "9"]] ∧
        (loadFile (specEnv fc qtToInt) (oneFile "in.csv" ["0,0,0,0,2,4", "1,0,1,0,2,9"]) "in.csv"
          fresh).2.m_fileCentering = Centering.Seven ∧
        (inputValid (specEnv fc qtToInt) { row := 0, column := 5 + fc } (QVariant.ofInt (-1))
          (loadFile (specEnv fc qtToInt) (oneFile "in.csv" ["0,0,0,0,2,4", "1,0,1,0,2,9"])
            "in.csv" fresh).2.m_fileCentering).1 = false) ∧
      ∀ (fs : FileSystem) (path : String) (s : InputFile) (index : QModelIndex)
        (value : QVariant) (v : Int),
        (loadFile (specEnv fc toInt) fs path s).2.m_fileCentering = Centering.Seven →
        index.column = 5 + fc → value.toFloat = some v → v < 0 →
        (inputValid (specEnv fc toInt) index value
          (loadFile (specEnv fc toInt) fs path s).2.m_fileCentering).1 = false := by
  have hgen : ∀ (ti : String → Option Int) (index : QModelIndex) (value : QVariant) (v : Int),
      index.column = 5 + fc → value.toFloat = some v → v < 0 →
      (inputValid (specEnv fc ti) index value Centering.Seven).1 = false := by
    intro ti index value v hcol hv hneg
    unfold inputValid
    have hsub : index.column - fc = 5 := by omega
    have hnd : ¬ (5 + fc = 4 + fc) := by omega
    have hn0 : ¬ (0 ≤ v) := by omega
    by_cases he : value.eqEmpty = true
    · simp [he]
    · simp [he, hv, specEnv, hsub, hcol, hnd, hn0]
  have hload : loadFile (specEnv fc qtToInt) (oneFile "in.csv" ["0,0,0,0,2,4", "1,0,1,0,2,9"])
      "in.csv" fresh =
      (FileStatus.Success,
        { fresh with
          m_filePath := "in.csv"
          m_fileCentering := Centering.Seven
          m_fileData := [["0", "0", "0", "0", "2", "4"], ["1", "0", "1", "0", "2", "9"]]
          m_pFsWatcher := some ["in.csv"] }) := by
    have h0 : loadFile (specEnv 0 qtToInt)
        (oneFile "in.csv" ["0,0,0,0,2,4", "1,0,1,0,2,9"]) "in.csv" fresh =
        (FileStatus.Success,
          { fresh with
            m_filePath := "in.csv"
            m_fileCentering := Centering.Seven
            m_fileData := [["0", "0", "0", "0", "2", "4"], ["1", "0", "1", "0", "2", "9"]]
            m_pFsWatcher := some ["in.csv"] }) := by
      decide
    rw [← h0]
    exact loadFile_framecount (specEnv 0 qtToInt) fc _ _ _
  refine ⟨?_, ?_⟩
  · rw [hload]
    exact ⟨rfl, rfl, rfl, hgen qtToInt _ _ (-1) rfl rfl (by decide)⟩
  · intro fs path s index value v hmode hcol hv hneg
    rw [hmode]
    exact hgen toInt index value v hcol hv hneg

/-- C10. A resolved centering mode is permanent under validation: for every
document whose mode is Seven or Zero and every sequence of calls to
valuesFormattedProperly, inputValid, loadFile, fileChanged and clearData with
arbitrary arguments, the mode after the sequence equals the mode before it. -/
theorem resolved_mode_permanent (E : Env) (calls : List Call) (s : InputFile)
    (hc : s.m_fileCentering = Centering.Seven ∨ s.m_fileCentering = Centering.Zero) :
    (runCalls E calls s).m_fileCentering = s.m_fileCentering := by
  apply runCalls_keeps_resolved
  rcases hc with h | h <;> simp [h]

/-- Witness of C10: a document in mode Seven goes through an edit with a
negative value, a reload of a file with negative axis values, a change
notification, a clear and a validation. -/
theorem resolved_mode_permanent_witness :
    (runCalls (specEnv 1 qtToInt)
        [Call.inputValid { row := 0, column := 6 } (QVariant.ofInt (-3)),
          Call.loadFile (oneFile "in.csv" ["0,0,0,0,0,-3"]) "in.csv",
          Call.fileChanged (oneFile "in.csv" ["0,0,0,0,0,-3"]),
          Call.clearData,
          Call.valuesFormattedProperly ["0", "0", "0", "0", "0", "-3"]]
        { fresh with m_fileCentering := Centering.Seven }).m_fileCentering =
      ({ fresh with m_fileCentering := Centering.Seven } : InputFile).m_fileCentering :=
  resolved_mode_permanent (specEnv 1 qtToInt)
    [Call.inputValid { row := 0, column := 6 } (QVariant.ofInt (-3)),
      Call.loadFile (oneFile "in.csv" ["0,0,0,0,0,-3"]) "in.csv",
      Call.fileChanged (oneFile "in.csv" ["0,0,0,0,0,-3"]),
      Call.clearData,
      Call.valuesFormattedProperly ["0", "0", "0", "0", "0", "-3"]]
    { fresh with m_fileCentering := Centering.Seven } (Or.inl rfl)

/-! ## Centering inference -/

/-- C9. Centering inference contract: for every integer `v` and every prior mode,
ableToDiscernCentering returns true iff `v` lies outside [0,7]; when `v > 7` the
mode becomes Seven, when `v < 0` the mode becomes Zero, and when `0 ≤ v ≤ 7` it
returns false and leaves the mode unchanged. -/
theorem ableToDiscernCentering_contract (v : Int) (c : Centering) :
    ((ableToDiscernCentering v c).1 = true ↔ (v < 0 ∨ 7 < v)) ∧
      (7 < v → (ableToDiscernCentering v c).2 = Centering.Seven) ∧
      (v < 0 → (ableToDiscernCentering v c).2 = Centering.Zero) ∧
      (0 ≤ v ∧ v ≤ 7 → ableToDiscernCentering v c = (false, c)) := by
  unfold ableToDiscernCentering
  refine ⟨?_, ?_, ?_, ?_⟩
  · split_ifs <;> simp <;> omega
  · intro h; simp [h]
  · intro h; have h7 : ¬ v > 7 := by omega
    simp [h, h7]
  · intro h; have h7 : ¬ v > 7 := by omega
    have h0 : ¬ v < 0 := by omega
    simp [h0, h7]

/-! ## Reload, debounce, swap and close -/

/-- The mode the loop leaves depends only on the mode it starts from. -/
theorem loadLines_mode_of_mode (E : Env) (p1 p2 : String) (lines : List String)
    (s1 s2 : InputFile) (h : s1.m_fileCentering = s2.m_fileCentering) :
    (loadLines E p1 lines s1).2.m_fileCentering = (loadLines E p2 lines s2).2.m_fileCentering := by
  induction lines generalizing s1 s2 with
  | nil => simpa [loadLines] using h
  | cons line rest ih =>
    rw [loadLines, loadLines]
    rw [h]
    by_cases hr : (valuesFormattedProperly E (split line ',') s2.m_fileCentering).1 = true
    · simp only [hr, Bool.not_true, Bool.false_eq_true, if_false]
      exact ih _ _ rfl
    · simp [hr, clearData]

theorem loadFile_mode_of_mode (E : Env) (fs : FileSystem) (path : String) (s1 s2 : InputFile)
    (h : s1.m_fileCentering = s2.m_fileCentering) :
    (loadFile E fs path s1).2.m_fileCentering = (loadFile E fs path s2).2.m_fileCentering := by
  unfold loadFile
  cases hopen : fs path with
  | none => simpa [hopen] using h
  | some lines =>
    simp only [hopen]
    exact loadLines_mode_of_mode E path path lines _ _ h

/-- The loop leaves the two debounce members alone. -/
theorem loadLines_debounce (E : Env) (path : String) (lines : List String) (s : InputFile) :
    (loadLines E path lines s).2.m_bModified = s.m_bModified ∧
      (loadLines E path lines s).2.m_iModifiedCheck = s.m_iModifiedCheck := by
  induction lines generalizing s with
  | nil => simp [loadLines]
  | cons line rest ih =>
    rw [loadLines]
    by_cases hr : (valuesFormattedProperly E (split line ',') s.m_fileCentering).1 = true
    · simp only [hr, Bool.not_true, Bool.false_eq_true, if_false]
      exact ih _
    · simp [hr, clearData]

theorem loadFile_debounce (E : Env) (fs : FileSystem) (path : String) (s : InputFile) :
    (loadFile E fs path s).2.m_bModified = s.m_bModified ∧
      (loadFile E fs path s).2.m_iModifiedCheck = s.m_iModifiedCheck := by
  unfold loadFile
  cases hopen : fs path with
  | none => simp [hopen]
  | some lines =>
    simp only [hopen]
    exact loadLines_debounce E path lines _

/-- With no suppression pending, `fileChanged` is the reload of lines 108-109. -/
theorem fileChanged_of_not_modified (E : Env) (fs : FileSystem) (s : InputFile)
    (hmod : s.m_bModified = false) :
    fileChanged E fs s = (loadFile E fs s.m_filePath { s with m_fileData := [] }).2 := by
  unfold fileChanged
  rw [if_neg (by simp [hmod])]

/-- What `fileChanged` does to the mode when no suppression is pending: it leaves
the mode that `loadFile` leaves when started from the mode the document already
has, so a mode that is Seven or Zero is still there after the reload. -/
theorem fileChanged_mode_from_stale (E : Env) (fs : FileSystem) (s d : InputFile)
    (hmod : s.m_bModified = false) (hd : d.m_fileCentering = s.m_fileCentering) :
    (fileChanged E fs s).m_fileCentering = (loadFile E fs s.m_filePath d).2.m_fileCentering ∧
      (s.m_fileCentering ≠ Centering.Unknown →
        (fileChanged E fs s).m_fileCentering = s.m_fileCentering) := by
  rw [fileChanged_of_not_modified E fs s hmod]
  constructor
  · exact loadFile_mode_of_mode E fs s.m_filePath _ d (by rw [hd])
  · intro hc
    exact loadFile_keeps_resolved E fs s.m_filePath { s with m_fileData := [] } hc

/-- C11 (the code at the failing input). A document in mode Seven with no
suppression pending, whose file "in.csv" now holds the lines "0,0,0,0,0,5" and
"1,0,0,0,0,-3". Loading these contents into a document in mode Unknown returns
Success, keeps both records and leaves the mode Zero; fileChanged instead checks
them against the stale mode Seven: it refuses line 2, empties the records and the
path, and the mode is still Seven, not the Zero of a load from Unknown. -/
theorem fileChanged_reloads_from_stale_mode :
    ({ fresh with
          m_filePath := "in.csv"
          m_fileCentering := Centering.Seven
          m_fileData := [["0", "0", "0", "0", "0", "9"]] } : InputFile).m_bModified = false ∧
      fileChanged (specEnv 1 qtToInt) (oneFile "in.csv" ["0,0,0,0,0,5", "1,0,0,0,0,-3"])
          { fresh with
            m_filePath := "in.csv"
            m_fileCentering := Centering.Seven
            m_fileData := [["0", "0", "0", "0", "0", "9"]] } =
        { fresh with
          m_filePath := ""
          m_fileCentering := Centering.Seven
          m_fileData := []
          m_frameParseError := 2 } ∧
      loadFile (specEnv 1 qtToInt) (oneFile "in.csv" ["0,0,0,0,0,5", "1,0,0,0,0,-3"]) "in.csv"
          { fresh with m_fileCentering := Centering.Unknown } =
        (FileStatus.Success,
          { fresh with
            m_filePath := "in.csv"
            m_fileCentering := Centering.Zero
            m_fileData := [["0", "0", "0", "0", "0", "5"], ["1", "0", "0", "0", "0", "-3"]]
            m_pFsWatcher := some ["in.csv"] }) := by
  decide

/-- C12. Two-notification debounce: from a document with m_bModified = true and
m_iModifiedCheck = 0, the first fileChanged call only raises the counter to 1, the
second only resets m_bModified to false and the counter to 0 (records, path and
centering mode untouched by both), and the third fileChanged call performs the
reload; moreover m_iModifiedCheck is 0 or 1 after every fileChanged call from any
state in which it is 0 or 1. -/
theorem two_notification_debounce (E : Env) (fs1 fs2 fs3 : FileSystem) (s : InputFile)
    (hmod : s.m_bModified = true) (hcheck : s.m_iModifiedCheck = 0) :
    fileChanged E fs1 s = { s with m_iModifiedCheck := 1 } ∧
      fileChanged E fs2 (fileChanged E fs1 s) =
        { s with m_bModified := false, m_iModifiedCheck := 0 } ∧
      fileChanged E fs3 (fileChanged E fs2 (fileChanged E fs1 s)) =
        (loadFile E fs3 s.m_filePath
          { s with m_bModified := false, m_iModifiedCheck := 0, m_fileData := [] }).2 ∧
      ∀ (fs : FileSystem) (t : InputFile), t.m_iModifiedCheck = 0 ∨ t.m_iModifiedCheck = 1 →
        (fileChanged E fs t).m_iModifiedCheck = 0 ∨ (fileChanged E fs t).m_iModifiedCheck = 1 := by
  have h1 : fileChanged E fs1 s = { s with m_iModifiedCheck := 1 } := by
    unfold fileChanged
    simp [hmod, hcheck]
  have h2 : fileChanged E fs2 { s with m_iModifiedCheck := 1 } =
      { s with m_bModified := false, m_iModifiedCheck := 0 } := by
    unfold fileChanged
    simp [hmod]
  refine ⟨h1, ?_, ?_, ?_⟩
  · rw [h1, h2]
  · rw [h1, h2, fileChanged_of_not_modified E fs3 _ rfl]
  · intro fs t ht
    by_cases hm : t.m_bModified = true
    · unfold fileChanged
      rw [if_pos hm]
      rcases ht with ht | ht <;> simp [ht]
    · have hm2 : t.m_bModified = false := by simpa using hm
      rw [fileChanged_of_not_modified E fs t hm2]
      rw [(loadFile_debounce E fs t.m_filePath { t with m_fileData := [] }).2]
      exact ht

/-- Witness of C12: a loaded document right after a write of its own. -/
theorem two_notification_debounce_witness :
    fileChanged (specEnv 1 qtToInt) (oneFile "in.csv" ["0,0,0,0,0,5"])
        { fresh with m_filePath := "in.csv", m_bModified := true } =
        { ({ fresh with m_filePath := "in.csv", m_bModified := true } : InputFile) with
          m_iModifiedCheck := 1 } ∧
      fileChanged (specEnv 1 qtToInt) (oneFile "in.csv" ["0,0,0,0,0,5"])
          (fileChanged (specEnv 1 qtToInt) (oneFile "in.csv" ["0,0,0,0,0,5"])
            { fresh with m_filePath := "in.csv", m_bModified := true }) =
        { ({ fresh with m_filePath := "in.csv", m_bModified := true } : InputFile) with
          m_bModified := false, m_iModifiedCheck := 0 } ∧
      fileChanged (specEnv 1 qtToInt) (oneFile "in.csv" ["0,0,0,0,0,5"])
          (fileChanged (specEnv 1 qtToInt) (oneFile "in.csv" ["0,0,0,0,0,5"])
            (fileChanged (specEnv 1 qtToInt) (oneFile "in.csv" ["0,0,0,0,0,5"])
              { fresh with m_filePath := "in.csv", m_bModified := true })) =
        (loadFile (specEnv 1 qtToInt) (oneFile "in.csv" ["0,0,0,0,0,5"])
          ({ fresh with m_filePath := "in.csv", m_bModified := true } : InputFile).m_filePath
          { ({ fresh with m_filePath := "in.csv", m_bModified := true } : InputFile) with
            m_bModified := false, m_iModifiedCheck := 0, m_fileData := [] }).2 ∧
      ∀ (fs : FileSystem) (t : InputFile), t.m_iModifiedCheck = 0 ∨ t.m_iModifiedCheck = 1 →
        (fileChanged (specEnv 1 qtToInt) fs t).m_iModifiedCheck = 0 ∨
          (fileChanged (specEnv 1 qtToInt) fs t).m_iModifiedCheck = 1 :=
  two_notification_debounce (specEnv 1 qtToInt) (oneFile "in.csv" ["0,0,0,0,0,5"])
    (oneFile "in.csv" ["0,0,0,0,0,5"]) (oneFile "in.csv" ["0,0,0,0,0,5"])
    { fresh with m_filePath := "in.csv", m_bModified := true } rfl rfl

/-- C13. The swap exchanges the full in-memory state: for all documents A and B,
with a writeFileOnDisk that leaves the content of a document as it is, after
A.swap(B) the records, centering mode, undo stack and redo stack of A are those B
had before and those of B are those A had before; and applying swap twice gives
both documents their records, centering mode and stacks back. -/
theorem swap_exchanges_state (w : DiskWriter) (hw : w.KeepsContent) (fs : FileSystem)
    (a b : InputFile) :
    ((swap w fs a b).2.1.m_fileData = b.m_fileData ∧
        (swap w fs a b).2.1.m_fileCentering = b.m_fileCentering ∧
        (swap w fs a b).2.1.m_undoStack = b.m_undoStack ∧
        (swap w fs a b).2.1.m_redoStack = b.m_redoStack) ∧
      ((swap w fs a b).2.2.m_fileData = a.m_fileData ∧
        (swap w fs a b).2.2.m_fileCentering = a.m_fileCentering ∧
        (swap w fs a b).2.2.m_undoStack = a.m_undoStack ∧
        (swap w fs a b).2.2.m_redoStack = a.m_redoStack) ∧
      ((swap w (swap w fs a b).1 (swap w fs a b).2.1 (swap w fs a b).2.2).2.1.m_fileData =
          a.m_fileData ∧
        (swap w (swap w fs a b).1 (swap w fs a b).2.1 (swap w fs a b).2.2).2.1.m_fileCentering =
          a.m_fileCentering ∧
        (swap w (swap w fs a b).1 (swap w fs a b).2.1 (swap w fs a b).2.2).2.1.m_undoStack =
          a.m_undoStack ∧
        (swap w (swap w fs a b).1 (swap w fs a b).2.1 (swap w fs a b).2.2).2.1.m_redoStack =
          a.m_redoStack) ∧
      ((swap w (swap w fs a b).1 (swap w fs a b).2.1 (swap w fs a b).2.2).2.2.m_fileData =
          b.m_fileData ∧
        (swap w (swap w fs a b).1 (swap w fs a b).2.1 (swap w fs a b).2.2).2.2.m_fileCentering =
          b.m_fileCentering ∧
        (swap w (swap w fs a b).1 (swap w fs a b).2.1 (swap w fs a b).2.2).2.2.m_undoStack =
          b.m_undoStack ∧
        (swap w (swap w fs a b).1 (swap w fs a b).2.1 (swap w fs a b).2.2).2.2.m_redoStack =
          b.m_redoStack) := by
  have once : ∀ (fs0 : FileSystem) (x y : InputFile),
      ((swap w fs0 x y).2.1.m_fileData = y.m_fileData ∧
        (swap w fs0 x y).2.1.m_fileCentering = y.m_fileCentering ∧
        (swap w fs0 x y).2.1.m_undoStack = y.m_undoStack ∧
        (swap w fs0 x y).2.1.m_redoStack = y.m_redoStack) ∧
      ((swap w fs0 x y).2.2.m_fileData = x.m_fileData ∧
        (swap w fs0 x y).2.2.m_fileCentering = x.m_fileCentering ∧
        (swap w fs0 x y).2.2.m_undoStack = x.m_undoStack ∧
        (swap w fs0 x y).2.2.m_redoStack = x.m_redoStack) := by
    intro fs0 x y
    unfold swap
    refine ⟨?_, ?_⟩
    · have h := hw fs0
        { x with
          m_fileData := y.m_fileData
          m_fileCentering := y.m_fileCentering
          m_undoStack := y.m_undoStack
          m_redoStack := y.m_redoStack
          pTableView := y.pTableView
          m_pFsWatcher := y.m_pFsWatcher }
      exact h
    · have h := hw
        (w fs0
          { x with
            m_fileData := y.m_fileData
            m_fileCentering := y.m_fileCentering
            m_undoStack := y.m_undoStack
            m_redoStack := y.m_redoStack
            pTableView := y.pTableView
            m_pFsWatcher := y.m_pFsWatcher }).1
        { y with
          m_fileData := x.m_fileData
          m_fileCentering := x.m_fileCentering
          m_undoStack := x.m_undoStack
          m_redoStack := x.m_redoStack
          pTableView := x.pTableView
          m_pFsWatcher := x.m_pFsWatcher }
      exact h
  have h1 := once fs a b
  have h2 := once (swap w fs a b).1 (swap w fs a b).2.1 (swap w fs a b).2.2
  obtain ⟨⟨a1, a2, a3, a4⟩, ⟨b1, b2, b3, b4⟩⟩ := h1
  obtain ⟨⟨c1, c2, c3, c4⟩, ⟨d1, d2, d3, d4⟩⟩ := h2
  refine ⟨⟨a1, a2, a3, a4⟩, ⟨b1, b2, b3, b4⟩, ⟨?_, ?_, ?_, ?_⟩, ⟨?_, ?_, ?_, ?_⟩⟩
  · rw [c1, b1]
  · rw [c2, b2]
  · rw [c3, b3]
  · rw [c4, b4]
  · rw [d1, a1]
  · rw [d2, a2]
  · rw [d3, a3]
  · rw [d4, a4]

/-- Witness of C13: two loaded documents and a writer that stores the records and
raises the self-modification flag. -/
theorem swap_exchanges_state_witness :
    ((swap sampleWriter (oneFile "a.csv" []) sampleA sampleB).2.1.m_fileData = sampleB.m_fileData ∧
        (swap sampleWriter (oneFile "a.csv" []) sampleA sampleB).2.1.m_fileCentering =
          sampleB.m_fileCentering ∧
        (swap sampleWriter (oneFile "a.csv" []) sampleA sampleB).2.1.m_undoStack =
          sampleB.m_undoStack ∧
        (swap sampleWriter (oneFile "a.csv" []) sampleA sampleB).2.1.m_redoStack =
          sampleB.m_redoStack) ∧
      ((swap sampleWriter (oneFile "a.csv" []) sampleA sampleB).2.2.m_fileData =
          sampleA.m_fileData ∧
        (swap sampleWriter (oneFile "a.csv" []) sampleA sampleB).2.2.m_fileCentering =
          sampleA.m_fileCentering ∧
        (swap sampleWriter (oneFile "a.csv" []) sampleA sampleB).2.2.m_undoStack =
          sampleA.m_undoStack ∧
        (swap sampleWriter (oneFile "a.csv" []) sampleA sampleB).2.2.m_redoStack =
          sampleA.m_redoStack) :=
  ⟨(swap_exchanges_state sampleWriter (fun _ _ => ⟨rfl, rfl, rfl, rfl⟩) (oneFile "a.csv" [])
      sampleA sampleB).1,
    (swap_exchanges_state sampleWriter (fun _ _ => ⟨rfl, rfl, rfl, rfl⟩) (oneFile "a.csv" [])
      sampleA sampleB).2.1⟩

/-- C14. The effects of clearData and closeFile: for every document, clearData
sets the path to empty and the record table to empty and leaves the centering
mode, the undo and redo stacks and the debounce fields unchanged; closeFile leaves
the path empty, the record table empty and the centering mode Unknown. -/
theorem clearData_closeFile_effects (s : InputFile) :
    ((clearData s).m_filePath = "" ∧ (clearData s).m_fileData = [] ∧
        (clearData s).m_fileCentering = s.m_fileCentering ∧
        (clearData s).m_undoStack = s.m_undoStack ∧ (clearData s).m_redoStack = s.m_redoStack ∧
        (clearData s).m_bModified = s.m_bModified ∧
        (clearData s).m_iModifiedCheck = s.m_iModifiedCheck) ∧
      ((closeFile s).m_filePath = "" ∧ (closeFile s).m_fileData = [] ∧
        (closeFile s).m_fileCentering = Centering.Unknown) :=
  ⟨⟨rfl, rfl, rfl, rfl, rfl, rfl, rfl⟩, ⟨rfl, rfl, rfl⟩⟩

/-- C16. The equality of CellEditAction ignores the previous value: for all
actions a and b, a == b holds iff their row index, column index and new value
(m_cur) are equal; two actions that differ only in m_prev are equal; and == is
reflexive, symmetric and transitive. -/
theorem cellEditAction_eq_contract (a b c : CellEditAction) (prev : String) :
    (a.eq b = true ↔ a.m_rowIdx = b.m_rowIdx ∧ a.m_colIdx = b.m_colIdx ∧ a.m_cur = b.m_cur) ∧
      a.eq { a with m_prev := prev } = true ∧ a.eq a = true ∧ (a.eq b = true → b.eq a = true) ∧
      (a.eq b = true → b.eq c = true → a.eq c = true) := by
  have hiff : ∀ x y : CellEditAction,
      (x.eq y = true ↔ x.m_rowIdx = y.m_rowIdx ∧ x.m_colIdx = y.m_colIdx ∧ x.m_cur = y.m_cur) := by
    intro x y
    simp [CellEditAction.eq, and_assoc]
  refine ⟨hiff a b, ?_, ?_, ?_, ?_⟩
  · exact (hiff _ _).mpr ⟨rfl, rfl, rfl⟩
  · exact (hiff _ _).mpr ⟨rfl, rfl, rfl⟩
  · intro h
    obtain ⟨h1, h2, h3⟩ := (hiff a b).mp h
    exact (hiff b a).mpr ⟨h1.symm, h2.symm, h3.symm⟩
  · intro h h2
    obtain ⟨p1, p2, p3⟩ := (hiff a b).mp h
    obtain ⟨q1, q2, q3⟩ := (hiff b c).mp h2
    exact (hiff a c).mpr ⟨p1.trans q1, p2.trans q2, p3.trans q3⟩

/-! ## Edits -/

/-- A refusal by `inputValid` leaves the mode as it was. -/
theorem inputValid_false_keeps_mode (E : Env) (index : QModelIndex) (value : QVariant)
    (c : Centering) (h : (inputValid E index value c).1 = false) :
    (inputValid E index value c).2 = c := by
  unfold inputValid at h ⊢
  cases hv : value.toFloat with
  | none => split_ifs <;> rfl
  | some iValue =>
    simp only [hv] at h ⊢
    split_ifs at h ⊢ <;> rfl

/-- The mode changes under `inputValid` only from Unknown, on a value of [-7,14]
outside [0,7]. -/
theorem inputValid_mode_change (E : Env) (index : QModelIndex) (value : QVariant)
    (c : Centering) (h : (inputValid E index value c).2 ≠ c) :
    c = Centering.Unknown ∧ ∃ v, value.toFloat = some v ∧ (v < 0 ∨ 7 < v) := by
  unfold inputValid at h
  cases hv : value.toFloat with
  | none =>
    simp only [hv] at h
    split_ifs at h <;> exact absurd rfl h
  | some iValue =>
    simp only [hv] at h
    split_ifs at h with h1 h2 h3 h4 h5 h6
    all_goals first
      | exact absurd rfl h
      | skip
    refine ⟨?_, iValue, rfl, ?_⟩
    · cases c <;> simp_all
    · by_contra hcon
      apply h
      have h7 : ¬ iValue > 7 := by omega
      have h0 : ¬ iValue < 0 := by omega
      simp [ableToDiscernCentering, h7, h0]

/-- C15. A refused edit changes nothing: for every document, cell index and
proposed value, if inputValid returns false then the document (centering mode,
records, path and every other member) is exactly what it was before the call; and
when inputValid returns true the mode changes only if it was Unknown and the
accepted value lies outside [0,7]. -/
theorem refused_edit_changes_nothing (E : Env) (index : QModelIndex) (value : QVariant)
    (s : InputFile) :
    ((InputFile.inputValid E index value s).1 = false →
        (InputFile.inputValid E index value s).2 = s) ∧
      ((InputFile.inputValid E index value s).1 = true →
        (InputFile.inputValid E index value s).2.m_fileCentering ≠ s.m_fileCentering →
        s.m_fileCentering = Centering.Unknown ∧
          ∃ v, value.toFloat = some v ∧ (v < 0 ∨ 7 < v)) ∧
      (InputFile.inputValid E index value s).2.m_fileData = s.m_fileData ∧
      (InputFile.inputValid E index value s).2.m_filePath = s.m_filePath := by
  refine ⟨?_, ?_, rfl, rfl⟩
  · intro h
    have hk := inputValid_false_keeps_mode E index value s.m_fileCentering h
    unfold InputFile.inputValid
    simp only [hk]
  · intro _ hne
    exact inputValid_mode_change E index value s.m_fileCentering hne

/-- C17 (the code at the failing input). The edit entry point has no "-0" test:
for every cell and every centering mode, inputValid called with the text "-0"
returns true, because the text converts to zero and zero lies in every range. -/
theorem inputValid_accepts_minus_zero_text (E : Env) (index : QModelIndex) (c : Centering) :
    (inputValid E index QVariant.minusZeroText c).1 = true := by
  unfold inputValid QVariant.minusZeroText
  simp only [Bool.false_eq_true, if_false]
  split_ifs with h1 h2 h3 h4 h5
  · rfl
  · rfl
  · rfl
  · rfl
  · exact absurd h5 (by decide)
  · rfl

/-! ## The range of a loaded document -/

/-- A value in the range of mode Unknown is in the range of every mode. -/
theorem withinColumnRange_of_step (E : Env) (c1 c2 : Centering) (i v : Int)
    (h : withinColumnRange E c1 i v = true) (hstep : c2 = c1 ∨ c1 = Centering.Unknown) :
    withinColumnRange E c2 i v = true := by
  rcases hstep with hs | hs
  · rw [hs]; exact h
  · subst hs
    unfold withinColumnRange at h ⊢
    split_ifs at h ⊢
    · exact h
    · exact h
    · cases c2 <;> simp [withinModeRange] at h ⊢ <;> omega

/-- A value that passes the bounds test lies in the range of its column under the
mode the test leaves, and the test leaves the mode it found unless that was
Unknown. -/
theorem valueWithinBounds_accepts (E : Env) (i v : Int) (c : Centering)
    (h : (valueWithinBounds E i v c).1 = true) :
    withinColumnRange E (valueWithinBounds E i v c).2 i v = true ∧
      ((valueWithinBounds E i v c).2 = c ∨ c = Centering.Unknown) := by
  by_cases hd : (E.DPAD_COL_IDX == i) = true
  · rw [valueWithinBounds_dpad E i v c hd] at h ⊢
    simp only [decide_eq_true_eq] at h
    simp [withinColumnRange, hd, h]
  · have hd1 : (E.DPAD_COL_IDX == i) = false := by simpa using hd
    by_cases hb : E.BUTTON_COL_IDXS.contains i = true
    · rw [valueWithinBounds_button E i v c hb hd1] at h ⊢
      simp only [decide_eq_true_eq] at h
      have h01 : 0 ≤ v ∧ v ≤ 1 := by omega
      unfold withinColumnRange
      simp only [hd1, hb, Bool.false_eq_true, if_false, if_true]
      simp [h01]
    · have hb1 : E.BUTTON_COL_IDXS.contains i = false := by simpa using hb
      have hax := (valueWithinBounds_axis E i v c hb1 hd1).mp h
      cases c with
      | Unknown =>
        refine ⟨?_, Or.inr rfl⟩
        have hr : -7 ≤ v ∧ v ≤ 14 := by
          rcases hax with h1 | h1 | h1
          · exact h1.2
          · exact absurd h1.1 (by simp)
          · exact absurd h1.1 (by simp)
        have hmode : (valueWithinBounds E i v Centering.Unknown).2 =
            if v > 7 then Centering.Seven else if v < 0 then Centering.Zero
            else Centering.Unknown := by
          unfold valueWithinBounds getLargestAcceptedValue getSmallestAcceptedValue
            ableToDiscernCentering
          simp only [hb1, hd1]
          by_cases h7 : v > 7
          · simp [h7]
          · by_cases h0 : v < 0
            · simp [h7, h0]
            · simp [h7, h0]
        rw [hmode]
        unfold withinColumnRange
        simp only [hd1, hb1, Bool.false_eq_true, if_false]
        by_cases h7 : v > 7
        · simp [h7, withinModeRange]; omega
        · by_cases h0 : v < 0
          · simp [h7, h0, withinModeRange]; omega
          · simp [h7, h0, withinModeRange]; omega
      | Zero =>
        rw [valueWithinBounds_keeps_resolved E i v Centering.Zero (by simp)]
        refine ⟨?_, Or.inl rfl⟩
        have hr : -7 ≤ v ∧ v ≤ 7 := by
          rcases hax with h1 | h1 | h1
          · exact absurd h1.1 (by simp)
          · exact absurd h1.1 (by simp)
          · exact h1.2
        unfold withinColumnRange
        simp only [hd1, hb1, Bool.false_eq_true, if_false]
        simp [withinModeRange, hr]
      | Seven =>
        rw [valueWithinBounds_keeps_resolved E i v Centering.Seven (by simp)]
        refine ⟨?_, Or.inl rfl⟩
        have hr : 0 ≤ v ∧ v ≤ 14 := by
          rcases hax with h1 | h1 | h1
          · exact absurd h1.1 (by simp)
          · exact h1.2
          · exact absurd h1.1 (by simp)
        unfold withinColumnRange
        simp only [hd1, hb1, Bool.false_eq_true, if_false]
        simp [withinModeRange, hr]

/-- When the loop of `valueRestrictionsAreMet` returns true, every field it went
through converts to a value in the range of its column under the mode the loop
leaves, and the loop leaves the mode it found unless that was Unknown. -/
theorem valueRestrictionsAreMetFrom_accepts (E : Env) (data : List String) (i : Int)
    (c : Centering) (h : (valueRestrictionsAreMetFrom E data i c).1 = true) :
    (∀ (j : Nat) (field : String), data[j]? = some field →
        ∃ v, E.toInt field = some v ∧
          withinColumnRange E (valueRestrictionsAreMetFrom E data i c).2 (i + (j : Int)) v = true) ∧
      ((valueRestrictionsAreMetFrom E data i c).2 = c ∨ c = Centering.Unknown) := by
  induction data generalizing i c with
  | nil =>
    refine ⟨?_, Or.inl rfl⟩
    intro j field hj
    simp at hj
  | cons first rest ih =>
    rw [valueRestrictionsAreMetFrom] at h ⊢
    by_cases hz : (first == "-0") = true
    · simp [hz] at h
    · simp only [hz, Bool.false_eq_true, if_false] at h ⊢
      cases hp : E.toInt first with
      | none => simp [hp] at h
      | some value =>
        simp only [hp] at h ⊢
        by_cases hr : (valueWithinBounds E i value c).1 = true
        · simp only [hr, Bool.not_true, Bool.false_eq_true, if_false] at h ⊢
          obtain ⟨hrange, hstep⟩ := valueWithinBounds_accepts E i value c hr
          obtain ⟨hrest, hstep2⟩ := ih (i + 1) (valueWithinBounds E i value c).2 h
          constructor
          · intro j field hj
            cases j with
            | zero =>
              simp only [List.getElem?_cons_zero, Option.some.injEq] at hj
              subst hj
              refine ⟨value, hp, ?_⟩
              have := withinColumnRange_of_step E _ _ i value hrange hstep2
              simpa using this
            | succ k =>
              simp only [List.getElem?_cons_succ] at hj
              obtain ⟨v, hv, hvr⟩ := hrest k field hj
              refine ⟨v, hv, ?_⟩
              have hidx : i + ((k + 1 : Nat) : Int) = i + 1 + (k : Int) := by push_cast; ring
              rw [hidx]
              exact hvr
          · rcases hstep2 with h2 | h2
            · rw [h2]; exact hstep
            · rcases hstep with h1 | h1
              · right; rw [← h1]; exact h2
              · right; exact h1
        · simp [hr] at h

/-- The loop of `loadFile` keeps this invariant: every field of every stored
record converts to a value in the range of its column under the current mode. -/
theorem loadLines_records_within (E : Env) (path : String) (lines : List String)
    (s : InputFile)
    (hs : ∀ r ∈ s.m_fileData, ∀ (j : Nat) (field : String), r[j]? = some field →
      ∃ v, E.toInt field = some v ∧ withinColumnRange E s.m_fileCentering (j : Int) v = true) :
    ∀ r ∈ (loadLines E path lines s).2.m_fileData, ∀ (j : Nat) (field : String),
      r[j]? = some field →
      ∃ v, E.toInt field = some v ∧
        withinColumnRange E (loadLines E path lines s).2.m_fileCentering (j : Int) v = true := by
  induction lines generalizing s with
  | nil => simpa [loadLines] using hs
  | cons line rest ih =>
    rw [loadLines]
    by_cases hr : (valuesFormattedProperly E (split line ',') s.m_fileCentering).1 = true
    · simp only [hr, Bool.not_true, Bool.false_eq_true, if_false]
      apply ih
      have hr2 := hr
      rw [valuesFormattedProperly_eq] at hr2
      have heq := valuesFormattedProperly_eq E (split line ',') s.m_fileCentering
      by_cases hn : (((split line ',').length : Int) != E.NUM_INPUT_COLUMNS) = true
      · simp [hn] at hr2
      · simp only [hn, Bool.false_eq_true, if_false] at hr2 heq
        obtain ⟨hnew, hstep⟩ :=
          valueRestrictionsAreMetFrom_accepts E (split line ',') 0 s.m_fileCentering hr2
        rw [← heq] at hnew hstep
        intro r hmem j field hj
        simp only [List.mem_append, List.mem_singleton] at hmem
        rcases hmem with hmem | hmem
        · obtain ⟨v, hv, hvr⟩ := hs r hmem j field hj
          exact ⟨v, hv, withinColumnRange_of_step E _ _ _ v hvr hstep⟩
        · subst hmem
          obtain ⟨v, hv, hvr⟩ := hnew j field hj
          refine ⟨v, hv, ?_⟩
          simpa using hvr
    · simp [hr, clearData]

/-- C18. A successfully loaded document lies in one consistent range: with the
spec's column roles, for every file loaded into a document with no records at
entry (a fresh document in particular), every stored field converts to an
integer; in a column that is neither a button nor the d-pad the value lies in
0..14 if the final mode is Seven, in -7..7 if the final mode is Zero and in 0..7
if the final mode is Unknown; every button value is 0 or 1 and every d-pad value
is in 0..4. -/
theorem loaded_document_in_one_range (fc : Int) (toInt : String → Option Int)
    (fs : FileSystem) (path : String) (s : InputFile) (hdata : s.m_fileData = []) :
    ∀ r ∈ (loadFile (specEnv fc toInt) fs path s).2.m_fileData, ∀ (j : Nat) (field : String),
      r[j]? = some field →
      ∃ v, toInt field = some v ∧
        ((j = 1 ∨ j = 2 ∨ j = 3) → (v = 0 ∨ v = 1)) ∧ (j = 4 → 0 ≤ v ∧ v ≤ 4) ∧
        ((j ≠ 1 ∧ j ≠ 2 ∧ j ≠ 3 ∧ j ≠ 4) →
          ((loadFile (specEnv fc toInt) fs path s).2.m_fileCentering = Centering.Seven →
              0 ≤ v ∧ v ≤ 14) ∧
            ((loadFile (specEnv fc toInt) fs path s).2.m_fileCentering = Centering.Zero →
              -7 ≤ v ∧ v ≤ 7) ∧
            ((loadFile (specEnv fc toInt) fs path s).2.m_fileCentering = Centering.Unknown →
              0 ≤ v ∧ v ≤ 7)) := by
  have hinv : ∀ r ∈ (loadFile (specEnv fc toInt) fs path s).2.m_fileData,
      ∀ (j : Nat) (field : String), r[j]? = some field →
      ∃ v, (specEnv fc toInt).toInt field = some v ∧
        withinColumnRange (specEnv fc toInt)
          (loadFile (specEnv fc toInt) fs path s).2.m_fileCentering (j : Int) v = true := by
    unfold loadFile
    cases hopen : fs path with
    | none => simp [hopen, hdata]
    | some lines =>
      simp only [hopen]
      exact loadLines_records_within (specEnv fc toInt) path lines { s with m_filePath := path }
        (by simp [hdata])
  intro r hr j field hj
  obtain ⟨v, hv, hrange⟩ := hinv r hr j field hj
  refine ⟨v, hv, ?_, ?_, ?_⟩
  · intro hcol
    have hb : (specEnv fc toInt).BUTTON_COL_IDXS.contains (j : Int) = true := by
      rcases hcol with h | h | h <;> subst h <;> simp [specEnv]
    have hd : ((specEnv fc toInt).DPAD_COL_IDX == (j : Int)) = false := by
      rcases hcol with h | h | h <;> subst h <;> simp [specEnv]
    unfold withinColumnRange at hrange
    simp only [hd, hb, Bool.false_eq_true, if_false, if_true, Bool.and_eq_true,
      decide_eq_true_eq] at hrange
    omega
  · intro hcol
    subst hcol
    have hd : ((specEnv fc toInt).DPAD_COL_IDX == ((4 : Nat) : Int)) = true := by simp [specEnv]
    unfold withinColumnRange at hrange
    simp only [hd, if_true, Bool.and_eq_true, decide_eq_true_eq] at hrange
    exact hrange
  · intro hcol
    have hb : (specEnv fc toInt).BUTTON_COL_IDXS.contains (j : Int) = false := by
      simp only [specEnv, List.contains_eq_any_beq, List.any_cons, List.any_nil, Bool.or_false,
        Bool.or_eq_false_iff, beq_eq_false_iff_ne, ne_eq]
      omega
    have hd : ((specEnv fc toInt).DPAD_COL_IDX == (j : Int)) = false := by
      simp only [specEnv, beq_eq_false_iff_ne, ne_eq]
      omega
    unfold withinColumnRange at hrange
    simp only [hd, hb, Bool.false_eq_true, if_false] at hrange
    refine ⟨?_, ?_, ?_⟩ <;> intro hm <;> rw [hm] at hrange <;>
      simpa [withinModeRange] using hrange

/-- Witness of C18: the axis field "9" of the second record of the two-line file
that resolves the mode to Seven. -/
theorem loaded_document_in_one_range_witness :
    ∃ v, qtToInt "9" = some v ∧
      (((5 : Nat) = 1 ∨ (5 : Nat) = 2 ∨ (5 : Nat) = 3) → (v = 0 ∨ v = 1)) ∧
      ((5 : Nat) = 4 → 0 ≤ v ∧ v ≤ 4) ∧
      (((5 : Nat) ≠ 1 ∧ (5 : Nat) ≠ 2 ∧ (5 : Nat) ≠ 3 ∧ (5 : Nat) ≠ 4) →
        ((loadFile (specEnv 1 qtToInt) (oneFile "in.csv" ["0,0,0,0,2,4", "1,0,1,0,2,9"])
            "in.csv" fresh).2.m_fileCentering = Centering.Seven → 0 ≤ v ∧ v ≤ 14) ∧
          ((loadFile (specEnv 1 qtToInt) (oneFile "in.csv" ["0,0,0,0,2,4", "1,0,1,0,2,9"])
            "in.csv" fresh).2.m_fileCentering = Centering.Zero → -7 ≤ v ∧ v ≤ 7) ∧
          ((loadFile (specEnv 1 qtToInt) (oneFile "in.csv" ["0,0,0,0,2,4", "1,0,1,0,2,9"])
            "in.csv" fresh).2.m_fileCentering = Centering.Unknown → 0 ≤ v ∧ v ≤ 7)) :=
  loaded_document_in_one_range 1 qtToInt (oneFile "in.csv" ["0,0,0,0,2,4", "1,0,1,0,2,9"])
    "in.csv" fresh rfl ["1", "0", "1", "0", "2", "9"] (by decide) 5 "9" (by decide)

/-! ## A rejected value still resolves the mode at load -/

/-- The loop over fields put in front of others: when the ones in front pass, it
goes on with the others from the next index in the mode reached; when they do
not, it stops where it stops on them alone. -/
theorem valueRestrictionsAreMetFrom_append (E : Env) (front rest : List String) (i : Int)
    (c : Centering) :
    valueRestrictionsAreMetFrom E (front ++ rest) i c =
      if (valueRestrictionsAreMetFrom E front i c).1 = true then
        valueRestrictionsAreMetFrom E rest (i + (front.length : Int))
          (valueRestrictionsAreMetFrom E front i c).2
      else valueRestrictionsAreMetFrom E front i c := by
  induction front generalizing i c with
  | nil => simp [valueRestrictionsAreMetFrom]
  | cons first more ih =>
    rw [List.cons_append, valueRestrictionsAreMetFrom, valueRestrictionsAreMetFrom]
    by_cases hz : (first == "-0") = true
    · simp [hz]
    · simp only [hz, Bool.false_eq_true, if_false]
      cases hp : E.toInt first with
      | none => simp
      | some value =>
        simp only []
        by_cases hr : (valueWithinBounds E i value c).1 = true
        · simp only [hr, Bool.not_true, Bool.false_eq_true, if_false]
          rw [ih]
          have hidx : i + 1 + (more.length : Int) = i + ((more.length + 1 : Nat) : Int) := by
            push_cast; ring
          simp only [List.length_cons, hidx]
        · simp [hr]

/-- In mode Unknown the bounds test of a column that is neither a button nor the
d-pad rejects a value above 14 and leaves Seven, and rejects a value below -7 and
leaves Zero. -/
theorem valueWithinBounds_rejects_and_resolves (E : Env) (i v : Int)
    (hb : E.BUTTON_COL_IDXS.contains i = false) (hd : (E.DPAD_COL_IDX == i) = false) :
    (14 < v → valueWithinBounds E i v Centering.Unknown = (false, Centering.Seven)) ∧
      (v < -7 → valueWithinBounds E i v Centering.Unknown = (false, Centering.Zero)) := by
  unfold valueWithinBounds getLargestAcceptedValue getSmallestAcceptedValue
    ableToDiscernCentering
  simp only [hb, hd]
  constructor
  · intro h
    have h7 : v > 7 := by omega
    simp [h7]
    omega
  · intro h
    have h7 : ¬ v > 7 := by omega
    have h0 : v < 0 := by omega
    simp [h7, h0]
    omega

/-- C19. Load-time validation resolves the mode even for a value it rejects: for
every integer v > 14 (resp. v < -7) checked in a column that is neither a button
nor the d-pad while the mode is Unknown, the load-time bounds test rejects v and
leaves the mode Seven (resp. Zero); so a loadFile on a document with no records
and mode Unknown that fails on such a field (the lines in front pass, the line
has the right count, the fields in front of it pass) returns Parse with empty
records and a mode that is not Unknown; whereas inputValid on a cell of that
column rejects the same value and leaves the mode Unknown. -/
theorem rejected_value_resolves_mode_at_load (E : Env) (i v : Int)
    (hb : E.BUTTON_COL_IDXS.contains i = false) (hd : (E.DPAD_COL_IDX == i) = false)
    (hv : 14 < v ∨ v < -7) :
    ((14 < v → valueWithinBounds E i v Centering.Unknown = (false, Centering.Seven)) ∧
        (v < -7 → valueWithinBounds E i v Centering.Unknown = (false, Centering.Zero))) ∧
      (∀ (fs : FileSystem) (path : String) (s : InputFile) (front : List String) (bad : String)
          (rest : List String) (c c1 : Centering) (before : List String) (field : String)
          (after : List String),
          s.m_fileData = [] → s.m_fileCentering = Centering.Unknown →
          fs path = some (front ++ bad :: rest) →
          validateLines E front Centering.Unknown = some c →
          split bad ',' = before ++ field :: after →
          ((before ++ field :: after).length : Int) = E.NUM_INPUT_COLUMNS →
          valueRestrictionsAreMetFrom E before 0 c = (true, c1) →
          (before.length : Int) = i → field ≠ "-0" → E.toInt field = some v →
          (loadFile E fs path s).1 = FileStatus.Parse ∧
            (loadFile E fs path s).2.m_fileData = [] ∧
            (loadFile E fs path s).2.m_fileCentering ≠ Centering.Unknown) ∧
      (∀ (index : QModelIndex) (value : QVariant),
          index.column = i + E.FRAMECOUNT_COLUMN → value.toFloat = some v →
          inputValid E index value Centering.Unknown = (false, Centering.Unknown)) := by
  have hres := valueWithinBounds_rejects_and_resolves E i v hb hd
  refine ⟨hres, ?_, ?_⟩
  · intro fs path s front bad rest c c1 before field after hdata hmode hopen hfront hsplit hlen
      hbefore hcol hz hparse
    have hfield : (valueWithinBounds E i v c1).1 = false ∧
        (valueWithinBounds E i v c1).2 ≠ Centering.Unknown := by
      by_cases hc1 : c1 = Centering.Unknown
      · subst hc1
        rcases hv with h | h
        · rw [hres.1 h]; simp
        · rw [hres.2 h]; simp
      · rw [valueWithinBounds_keeps_resolved E i v c1 hc1]
        refine ⟨?_, hc1⟩
        have hax := valueWithinBounds_axis E i v c1 hb hd
        cases hacc : (valueWithinBounds E i v c1).1 with
        | false => rfl
        | true =>
          have h3 := hax.mp hacc
          rcases h3 with h3 | h3 | h3 <;> omega
    have hz2 : (field == "-0") = false := by simpa using hz
    have hline : valuesFormattedProperly E (split bad ',') c =
        (false, (valueWithinBounds E i v c1).2) := by
      rw [valuesFormattedProperly_eq, hsplit]
      have hn : (((before ++ field :: after).length : Int) != E.NUM_INPUT_COLUMNS) = false := by
        rw [hlen]
        exact bne_self_eq_false _
      simp only [hn, Bool.false_eq_true, if_false]
      rw [valueRestrictionsAreMetFrom_append, hbefore]
      simp only [if_true]
      rw [valueRestrictionsAreMetFrom]
      simp only [hz2, Bool.false_eq_true, if_false, hparse, zero_add, hcol, hfield.1,
        Bool.not_false, if_true]
    have hbad : (valuesFormattedProperly E (split bad ',') c).1 = false := by rw [hline]
    unfold loadFile
    simp only [hopen]
    rw [loadLines_of_rejected E path front bad rest { s with m_filePath := path } c
      (by simpa [hmode] using hfront) hbad]
    refine ⟨rfl, rfl, ?_⟩
    simp only [hline]
    exact hfield.2
  · intro index value hcol hval
    have hsub : index.column - E.FRAMECOUNT_COLUMN = i := by omega
    have hnd : (index.column == E.DPAD_COL_IDX + E.FRAMECOUNT_COLUMN) = false := by
      have hne : E.DPAD_COL_IDX ≠ i := by simpa using hd
      have hne2 : index.column ≠ E.DPAD_COL_IDX + E.FRAMECOUNT_COLUMN := by omega
      simpa using hne2
    have hout : (decide (v < -7) || decide (v > 14)) = true := by
      rcases hv with h | h <;> simp [h]
    unfold inputValid
    by_cases he : value.eqEmpty = true
    · simp [he]
    · simp only [he, Bool.false_eq_true, if_false, hval, hsub, hb, hnd, hout, if_true]
      simp

/-- Witness of C19: the axis column of the spec's layout and the value 20, met
on the first line of a file. -/
theorem rejected_value_resolves_mode_at_load_witness :
    (valueWithinBounds (specEnv 1 qtToInt) 5 20 Centering.Unknown = (false, Centering.Seven)) ∧
      ((loadFile (specEnv 1 qtToInt) (oneFile "in.csv" ["0,0,0,0,0,20"]) "in.csv" fresh).1 =
          FileStatus.Parse ∧
        (loadFile (specEnv 1 qtToInt) (oneFile "in.csv" ["0,0,0,0,0,20"]) "in.csv"
          fresh).2.m_fileData = [] ∧
        (loadFile (specEnv 1 qtToInt) (oneFile "in.csv" ["0,0,0,0,0,20"]) "in.csv"
          fresh).2.m_fileCentering ≠ Centering.Unknown) ∧
      inputValid (specEnv 1 qtToInt) { row := 0, column := 6 } (QVariant.ofInt 20)
        Centering.Unknown = (false, Centering.Unknown) :=
  ⟨(rejected_value_resolves_mode_at_load (specEnv 1 qtToInt) 5 20 (by decide) (by decide)
      (Or.inl (by decide))).1.1 (by decide),
    (rejected_value_resolves_mode_at_load (specEnv 1 qtToInt) 5 20 (by decide) (by decide)
      (Or.inl (by decide))).2.1 (oneFile "in.csv" ["0,0,0,0,0,20"]) "in.csv" fresh []
      "0,0,0,0,0,20" [] Centering.Unknown Centering.Unknown ["0", "0", "0", "0", "0"] "20" []
      rfl rfl (by decide) (by decide) (by decide) (by decide) (by decide) (by decide) (by decide)
      (by decide),
    (rejected_value_resolves_mode_at_load (specEnv 1 qtToInt) 5 20 (by decide) (by decide)
      (Or.inl (by decide))).2.2 { row := 0, column := 6 } (QVariant.ofInt 20) (by decide) rfl⟩

end TASToolKit
